import Mathlib

/-!
# Verification of the jsonschemax Draft-07 JSON Schema compiler

A shallow embedding of the `jsonschemax` Python package (modules
`jsonschemax/types.py`, `jsonschemax/utils.py`, `jsonschemax/compilation.py`,
`jsonschemax/keywords.py`, `jsonschemax/meta_validation.py`), together with
theorems settling the specification claims about it.

Modelling conventions:
* Python JSON values (`None`, `bool`, `int`, `float`, `str`, `list`, `dict`)
  are the mutually inductive type `JSON` below.  Python `float`s are modelled
  as rationals (no NaN/infinity arise in any schema or instance considered
  here, and the claims do not exercise binary floating-point rounding).
* Python dicts are association lists in insertion order with unique keys.
* The compiler (`Validation.evaluate` / `Validation.init` / `compile`) builds
  closures eagerly; we mirror it as a fuel-indexed function producing an
  explicit evaluator AST (`Ev`) plus the mutated global maps, and a separate
  fuel-indexed evaluation function.  Fuel exhaustion, as well as points where
  the Python code would raise at evaluation time, yield `none`; compile-time
  exceptions (`InvalidSchemaError`, `KeyError`, `AssertionError`, `TypeError`)
  are the constructors of `CErr`.
* `urllib.parse` helpers (`urljoin`, `urlsplit`, `unquote`) are standard
  library collaborators, modelled by the simplified functions below, faithful
  on every input shape the embedded code feeds them.
-/

set_option maxRecDepth 20000

namespace Jsx

/- Python JSON values (`jsonschemax.types.JSON`): `None`, `bool`, `int`,
`float`, `str`, `list`, `dict`.  `bool`, `int` and `float` are separate
constructors because the Python code distinguishes them with `isinstance`
and `type`. -/
mutual

/-- Python JSON value (see the comment above the `mutual` block). -/
inductive JSON where
  | null : JSON
  | boolV : Bool → JSON
  | intV : Int → JSON
  | floatV : Rat → JSON
  | strV : String → JSON
  | arr : JList → JSON
  | obj : JObj → JSON

inductive JList where
  | nil : JList
  | cons : JSON → JList → JList

inductive JObj where
  | nil : JObj
  | cons : String → JSON → JObj → JObj

end

/-- Build a `JList` from a Lean list (surface syntax helper). -/
def JList.ofList : List JSON → JList
  | [] => .nil
  | x :: xs => .cons x (JList.ofList xs)

/-- Build a `JObj` from a Lean association list (surface syntax helper). -/
def JObj.ofList : List (String × JSON) → JObj
  | [] => .nil
  | (k, v) :: xs => .cons k v (JObj.ofList xs)

/-- A JSON array literal. -/
def jarr (l : List JSON) : JSON := .arr (JList.ofList l)

/-- A JSON object literal. -/
def jobj (l : List (String × JSON)) : JSON := .obj (JObj.ofList l)

/-- Length of a Python list. -/
def JList.length : JList → Nat
  | .nil => 0
  | .cons _ t => t.length + 1

/-- Zero-based indexing of a Python list (`xs[i]`). -/
def JList.get? : JList → Nat → Option JSON
  | .nil, _ => none
  | .cons h _, 0 => some h
  | .cons _ t, n + 1 => t.get? n

/-- `all(p(x) for x in l)`-style traversal. -/
def JList.all (p : JSON → Bool) : JList → Bool
  | .nil => true
  | .cons h t => p h && t.all p

/-- Number of keys of a Python dict (`len(d.keys())`). -/
def JObj.length : JObj → Nat
  | .nil => 0
  | .cons _ _ t => t.length + 1

/-- Python dict lookup `d[k]` / `d.get(k)` (keys are unique, first match). -/
def JObj.lookup : JObj → String → Option JSON
  | .nil, _ => none
  | .cons k v t, key => if k == key then some v else t.lookup key

/-- Python dict membership `k in d`. -/
def JObj.hasKey (o : JObj) (key : String) : Bool :=
  (o.lookup key).isSome

/-- Python `d.keys()` in insertion order. -/
def JObj.keys : JObj → List String
  | .nil => []
  | .cons k _ t => k :: t.keys

/-- The Python runtime type of a JSON value, as returned by `type(x)`. -/
inductive PyType where
  | noneT | boolT | intT | floatT | strT | listT | dictT
  deriving DecidableEq

/-- `type(x)` on JSON values. -/
def pyType : JSON → PyType
  | .null => .noneT
  | .boolV _ => .boolT
  | .intV _ => .intT
  | .floatV _ => .floatT
  | .strV _ => .strT
  | .arr _ => .listT
  | .obj _ => .dictT

/-- The numeric value of a Python number (`bool` counts: `True == 1`),
`none` for non-numeric values. -/
def pyNum? : JSON → Option Rat
  | .boolV b => some (if b then 1 else 0)
  | .intV n => some (n : Rat)
  | .floatV q => some q
  | _ => none

/- Python equality `x == y` on JSON values: numbers (including `bool`)
compare by numeric value, strings by content, lists pointwise, dicts by
key set and pointwise values; values of unrelated kinds are unequal. -/
mutual

/-- Python equality `x == y` (see the comment above the `mutual` block). -/
def pyEq : JSON → JSON → Bool
  | .null, .null => true
  | .strV a, .strV c => a == c
  | .arr a, .arr c => pyEqList a c
  | .obj a, .obj c => a.length == c.length && pyEqSub a c
  | x, y =>
    match pyNum? x, pyNum? y with
    | some p, some q => p == q
    | _, _ => false

def pyEqList : JList → JList → Bool
  | .nil, .nil => true
  | .cons h t, .cons h' t' => pyEq h h' && pyEqList t t'
  | _, _ => false

def pyEqSub : JObj → JObj → Bool
  | .nil, _ => true
  | .cons k v t, other =>
    (match other.lookup k with
     | some w => pyEq v w
     | none => false) && pyEqSub t other

end

/-- Python truthiness `bool(x)` of a JSON value. -/
def pyTruthy : JSON → Bool
  | .null => false
  | .boolV b => b
  | .intV n => n != 0
  | .floatV q => q != 0
  | .strV s => s != ""
  | .arr l => l.length != 0
  | .obj o => o.length != 0

/-! ## Type predicates (`jsonschemax/types.py`) -/

/-- `types.is_integer`: non-bool `int`, or `float` with zero fractional part. -/
def is_integer : JSON → Bool
  | .boolV _ => false
  | .intV _ => true
  | .floatV q => q.den == 1
  | _ => false

/-- `types.is_null`. -/
def is_null : JSON → Bool
  | .null => true
  | _ => false

/-- `types.is_boolean`. -/
def is_boolean : JSON → Bool
  | .boolV _ => true
  | _ => false

/-- `types.is_object`. -/
def is_object : JSON → Bool
  | .obj _ => true
  | _ => false

/-- `types.is_array`. -/
def is_array : JSON → Bool
  | .arr _ => true
  | _ => false

/-- `types.is_number`: `int` or `float`, but not `bool`. -/
def is_number : JSON → Bool
  | .intV _ => true
  | .floatV _ => true
  | _ => false

/-- `types.is_string`. -/
def is_string : JSON → Bool
  | .strV _ => true
  | _ => false

/-- `utils.type_map`: Draft-07 type name to predicate; `none` models the
`KeyError` raised on an unknown name. -/
def type_map (name : String) : Option (JSON → Bool) :=
  if name = "null" then some is_null
  else if name = "boolean" then some is_boolean
  else if name = "object" then some is_object
  else if name = "array" then some is_array
  else if name = "number" then some is_number
  else if name = "string" then some is_string
  else if name = "integer" then some is_integer
  else none

/-! ## String utilities

Character-list models of the Python string operations used by the JSON
pointer and URI code. -/

/-- Value of an ASCII hex digit, if it is one. -/
def hexVal (c : Char) : Option Nat :=
  if '0' ≤ c ∧ c ≤ '9' then some (c.toNat - '0'.toNat)
  else if 'a' ≤ c ∧ c ≤ 'f' then some (c.toNat - 'a'.toNat + 10)
  else if 'A' ≤ c ∧ c ≤ 'F' then some (c.toNat - 'A'.toNat + 10)
  else none

/-- `urllib.parse.unquote`, restricted to single-byte (ASCII) percent
escapes — the only ones the embedded code is ever applied to. -/
def pyUnquote : List Char → List Char
  | [] => []
  | [c] => [c]
  | [c, c1] => [c, c1]
  | c :: c1 :: c2 :: rest =>
    if c = '%' then
      match hexVal c1, hexVal c2 with
      | some h1, some h2 => Char.ofNat (16 * h1 + h2) :: pyUnquote rest
      | _, _ => '%' :: pyUnquote (c1 :: c2 :: rest)
    else c :: pyUnquote (c1 :: c2 :: rest)

/-- Python `s.replace(a₁a₂, r)` for a two-character pattern: left-to-right,
non-overlapping. -/
def replace2 (a1 a2 r : Char) : List Char → List Char
  | [] => []
  | [c] => [c]
  | c1 :: c2 :: rest =>
    if c1 = a1 ∧ c2 = a2 then r :: replace2 a1 a2 r rest
    else c1 :: replace2 a1 a2 r (c2 :: rest)

/-- Python `s.split(sep)` for a single-character separator (never returns
an empty list; `"".split(c) == [""]`). -/
def splitOnChar (sep : Char) : List Char → List (List Char)
  | [] => [[]]
  | c :: rest =>
    match splitOnChar sep rest with
    | [] => [[c]]
    | t :: ts => if c = sep then [] :: t :: ts else (c :: t) :: ts

/-- Python `s.isdigit()` for ASCII strings: non-empty and all digits. -/
def pyIsDigit (cs : List Char) : Bool :=
  !cs.isEmpty && cs.all (fun c => '0' ≤ c && c ≤ '9')

/-- `int(s)` on an all-digit string. -/
def digitsToNat (cs : List Char) : Nat :=
  cs.foldl (fun acc c => 10 * acc + (c.toNat - '0'.toNat)) 0

/-! ## JSON Pointer (`jsonschemax/utils.py`, class `JsonPointer`) -/

/-- `JsonPointer.parse_json_pointer`: `""` and `"#"` give no tokens;
otherwise percent-decode, strip one leading `#` and one leading `/`, split
on `/`, and unescape each token by replacing `~1` with `/` first and then
`~0` with `~`. -/
def parse_json_pointer (p : String) : List String :=
  if p = "" ∨ p = "#" then []
  else
    let cs0 := pyUnquote p.toList
    let cs1 := if cs0.head? = some '#' then cs0.tail else cs0
    let cs2 := if cs1.head? = some '/' then cs1.tail else cs1
    (splitOnChar '/' cs2).map fun t =>
      String.mk (replace2 '~' '0' '~' (replace2 '~' '1' '/' t))

/-- `JsonPointer.evaluate_tokens`: walk the document; a token selects a dict
key or (if all digits and in range) a list index.  Returns
`(is_successful, result)`; failure returns `(False, None)`. -/
def evaluate_tokens : JSON → List String → Bool × JSON
  | cur, [] => (true, cur)
  | cur, t :: ts =>
    match cur with
    | .obj kvs =>
      match kvs.lookup t with
      | some v => evaluate_tokens v ts
      | none => (false, .null)
    | .arr l =>
      if pyIsDigit t.toList ∧ digitsToNat t.toList < l.length then
        match l.get? (digitsToNat t.toList) with
        | some v => evaluate_tokens v ts
        | none => (false, .null)
      else (false, .null)
    | _ => (false, .null)

/-- `JsonPointer.evaluate`: parse then walk. -/
def JsonPointer.evaluate (doc : JSON) (p : String) : Bool × JSON :=
  evaluate_tokens doc (parse_json_pointer p)

/-! ## URI utilities (`jsonschemax/utils.py` and `urllib.parse`) -/

/-- Split a character list at the first `#`. -/
def splitAtHash : List Char → List Char × List Char
  | [] => ([], [])
  | c :: rest =>
    if c = '#' then ([], rest)
    else
      let (a, f) := splitAtHash rest
      (c :: a, f)

/-- `utils.split_uri`: split a URI into `(absolute_uri, fragment)`, the
absolute part being everything before the first `#`. -/
def split_uri (u : String) : String × String :=
  let (a, f) := splitAtHash u.toList
  (String.mk a, String.mk f)

/-- The scheme of a URI reference: the characters before the first `:`,
provided no `/`, `?` or `#` occurs earlier. -/
def schemeSplit : List Char → Option (List Char)
  | [] => none
  | c :: rest =>
    if c = ':' then some []
    else if c = '/' ∨ c = '?' ∨ c = '#' then none
    else (schemeSplit rest).map (fun sc => c :: sc)

/-- Whether a URI reference carries a scheme. -/
def hasScheme (u : String) : Bool :=
  match schemeSplit u.toList with
  | some (c :: _) => c.isAlpha
  | _ => false

/-- Modelled from the standard library: `urllib.parse.urljoin`, restricted
to the reference shapes the embedded code produces.  An empty base returns
the reference unchanged; an empty reference returns the base; a reference
with a scheme stands alone; a fragment-only reference replaces the base's
fragment.  Other relative references (path merging) do not occur in any
schema considered in this development and are returned unchanged. -/
def urljoin (base rel : String) : String :=
  if base = "" then rel
  else if rel = "" then base
  else if hasScheme rel then rel
  else if rel.toList.head? = some '#' then (split_uri base).1 ++ rel
  else rel

/-! ## Association-list helpers for the global maps

Python dict assignment keeps the position of an existing key and appends a
new key at the end. -/

/-- Lookup in a string-keyed association list (Python `d[k]` / `in`). -/
def alookup {α : Type} : List (String × α) → String → Option α
  | [], _ => none
  | (k', v) :: t, k => if k' == k then some v else alookup t k

/-- Python `d[k] = v`: replace in place or append. -/
def aset {α : Type} : List (String × α) → String → α → List (String × α)
  | [], k, v => [(k, v)]
  | (k', v') :: t, k, v =>
    if k' == k then (k', v) :: t else (k', v') :: aset t k v

/-- Convert a `JList` back to a Lean list. -/
def JList.toList : JList → List JSON
  | .nil => []
  | .cons h t => h :: t.toList

/-- Convert a `JObj` back to a Lean association list (`d.items()`). -/
def JObj.toList : JObj → List (String × JSON)
  | .nil => []
  | .cons k v t => (k, v) :: t.toList

/-! ## The Draft-07 meta-schema and meta-validation

The packaged meta-schema file (`jsonschemax/meta_schemas/draft-07.json`,
loaded by `utils.get_meta_schema`) and `jsonschemax/errors.py` are not among
the sources under verification; the spec states that the library ships the
standard Draft-07 meta-schema and that `meta_validation.draft7_validation`
is the validator compiled from it with `check_schema` off.  Both are
modelled here: the meta-schema as literal data (used as the value seeded
into `schema_by_uri`), and the meta-validator as the direct recursive check
`metaOK` below. -/

/-- Modelled from the spec: the standard JSON-Schema Draft-07 meta-schema,
standing in for the packaged `meta_schemas/draft-07.json` file that is not
under `src/`. -/
def draft7_meta_schema : JSON := jobj
  [("$schema", .strV "http://json-schema.org/draft-07/schema#"),
   ("$id", .strV "http://json-schema.org/draft-07/schema#"),
   ("title", .strV "Core schema meta-schema"),
   ("definitions", jobj
     [("schemaArray", jobj
        [("type", .strV "array"), ("minItems", .intV 1),
         ("items", jobj [("$ref", .strV "#")])]),
      ("nonNegativeInteger", jobj
        [("type", .strV "integer"), ("minimum", .intV 0)]),
      ("nonNegativeIntegerDefault0", jobj
        [("allOf", jarr
           [jobj [("$ref", .strV "#/definitions/nonNegativeInteger")],
            jobj [("default", .intV 0)]])]),
      ("simpleTypes", jobj
        [("enum", jarr
           [.strV "array", .strV "boolean", .strV "integer", .strV "null",
            .strV "number", .strV "object", .strV "string"])]),
      ("stringArray", jobj
        [("type", .strV "array"), ("items", jobj [("type", .strV "string")]),
         ("uniqueItems", .boolV true), ("default", jarr [])])]),
   ("type", jarr [.strV "object", .strV "boolean"]),
   ("properties", jobj
     [("$id", jobj [("type", .strV "string"), ("format", .strV "uri-reference")]),
      ("$schema", jobj [("type", .strV "string"), ("format", .strV "uri")]),
      ("$ref", jobj [("type", .strV "string"), ("format", .strV "uri-reference")]),
      ("$comment", jobj [("type", .strV "string")]),
      ("title", jobj [("type", .strV "string")]),
      ("description", jobj [("type", .strV "string")]),
      ("default", .boolV true),
      ("readOnly", jobj [("type", .strV "boolean"), ("default", .boolV false)]),
      ("examples", jobj [("type", .strV "array"), ("items", .boolV true)]),
      ("multipleOf", jobj [("type", .strV "number"), ("exclusiveMinimum", .intV 0)]),
      ("maximum", jobj [("type", .strV "number")]),
      ("exclusiveMaximum", jobj [("type", .strV "number")]),
      ("minimum", jobj [("type", .strV "number")]),
      ("exclusiveMinimum", jobj [("type", .strV "number")]),
      ("maxLength", jobj [("$ref", .strV "#/definitions/nonNegativeInteger")]),
      ("minLength", jobj [("$ref", .strV "#/definitions/nonNegativeIntegerDefault0")]),
      ("pattern", jobj [("type", .strV "string"), ("format", .strV "regex")]),
      ("additionalItems", jobj [("$ref", .strV "#")]),
      ("items", jobj
        [("anyOf", jarr
           [jobj [("$ref", .strV "#")],
            jobj [("$ref", .strV "#/definitions/schemaArray")]]),
         ("default", .boolV true)]),
      ("maxItems", jobj [("$ref", .strV "#/definitions/nonNegativeInteger")]),
      ("minItems", jobj [("$ref", .strV "#/definitions/nonNegativeIntegerDefault0")]),
      ("uniqueItems", jobj [("type", .strV "boolean"), ("default", .boolV false)]),
      ("contains", jobj [("$ref", .strV "#")]),
      ("maxProperties", jobj [("$ref", .strV "#/definitions/nonNegativeInteger")]),
      ("minProperties", jobj [("$ref", .strV "#/definitions/nonNegativeIntegerDefault0")]),
      ("required", jobj [("$ref", .strV "#/definitions/stringArray")]),
      ("additionalProperties", jobj [("$ref", .strV "#")]),
      ("definitions", jobj
        [("type", .strV "object"),
         ("additionalProperties", jobj [("$ref", .strV "#")]),
         ("default", jobj [])]),
      ("properties", jobj
        [("type", .strV "object"),
         ("additionalProperties", jobj [("$ref", .strV "#")]),
         ("default", jobj [])]),
      ("patternProperties", jobj
        [("type", .strV "object"),
         ("additionalProperties", jobj [("$ref", .strV "#")]),
         ("propertyNames", jobj [("format", .strV "regex")]),
         ("default", jobj [])]),
      ("dependencies", jobj
        [("type", .strV "object"),
         ("additionalProperties", jobj
           [("anyOf", jarr
              [jobj [("$ref", .strV "#")],
               jobj [("$ref", .strV "#/definitions/stringArray")]])])]),
      ("propertyNames", jobj [("$ref", .strV "#")]),
      ("const", .boolV true),
      ("enum", jobj [("type", .strV "array"), ("items", .boolV true)]),
      ("if", jobj [("$ref", .strV "#")]),
      ("then", jobj [("$ref", .strV "#")]),
      ("else", jobj [("$ref", .strV "#")]),
      ("allOf", jobj [("$ref", .strV "#/definitions/schemaArray")]),
      ("anyOf", jobj [("$ref", .strV "#/definitions/schemaArray")]),
      ("oneOf", jobj [("$ref", .strV "#/definitions/schemaArray")]),
      ("not", jobj [("$ref", .strV "#")])]),
   ("default", .boolV true)]

/-- The Draft-07 simple type names (`definitions.simpleTypes` of the
meta-schema). -/
def simpleTypeName (n : String) : Bool :=
  n = "array" ∨ n = "boolean" ∨ n = "integer" ∨ n = "null" ∨
  n = "number" ∨ n = "object" ∨ n = "string"

/-- All elements are simple type names. -/
def typeNameList : JList → Bool
  | .nil => true
  | .cons (.strV n) t => simpleTypeName n && typeNameList t
  | .cons _ _ => false

/-- All elements are strings (the meta-schema's `stringArray`). -/
def stringList : JList → Bool
  | .nil => true
  | .cons (.strV _) t => stringList t
  | .cons _ _ => false

/-- A non-negative integer in the sense of the meta-schema's
`nonNegativeInteger` (`type: integer, minimum: 0`): `is_integer` holds and
the numeric value is at least `0`. -/
def nonNegInt (v : JSON) : Bool :=
  is_integer v && (match pyNum? v with | some q => decide (0 ≤ q) | none => false)

/- Modelled from the spec: `meta_validation.draft7_validation`, the verdict
of the Draft-07 meta-schema (compiled with `check_schema` off) on a
candidate schema.  The meta-schema file is not under `src/`; the recursive
check below follows the spec's value-shape table in §4.4 and the standard
meta-schema: a schema is a boolean or an object whose known keyword values
are well-shaped, with subschema positions checked recursively; unknown
members are unconstrained. -/
mutual

/-- Modelled from the spec: verdict of the Draft-07 meta-validator (see the
comment above the `mutual` block). -/
def metaOK : JSON → Bool
  | .boolV _ => true
  | .obj kvs => metaKws kvs
  | _ => false

/-- Check every member of a schema object against the meta-schema. -/
def metaKws : JObj → Bool
  | .nil => true
  | .cons k v t =>
    (if k = "type" then
      match v with
      | .strV n => simpleTypeName n
      | .arr l => l.length != 0 && typeNameList l
      | _ => false
     else if k = "enum" then
      match v with
      | .arr l => l.length != 0
      | _ => false
     else if k = "const" ∨ k = "default" then true
     else if k = "multipleOf" then
      is_number v && (match pyNum? v with | some q => decide (0 < q) | none => false)
     else if k = "maximum" ∨ k = "exclusiveMaximum" ∨ k = "minimum" ∨
             k = "exclusiveMinimum" then is_number v
     else if k = "maxLength" ∨ k = "minLength" ∨ k = "maxItems" ∨
             k = "minItems" ∨ k = "maxProperties" ∨ k = "minProperties" then
      nonNegInt v
     else if k = "pattern" ∨ k = "$id" ∨ k = "$ref" ∨ k = "$schema" ∨
             k = "$comment" ∨ k = "title" ∨ k = "description" ∨
             k = "format" ∨ k = "contentMediaType" ∨ k = "contentEncoding" then
      is_string v
     else if k = "readOnly" then is_boolean v
     else if k = "examples" then is_array v
     else if k = "uniqueItems" then is_boolean v
     else if k = "items" then
      -- a single schema, or a non-empty array of schemas
      match v with
      | .arr l => l.length != 0 && metaList l
      | .boolV _ => true
      | .obj o => metaKws o
      | _ => false
     else if k = "additionalItems" ∨ k = "contains" ∨
             k = "additionalProperties" ∨ k = "propertyNames" ∨ k = "not" ∨
             k = "if" ∨ k = "then" ∨ k = "else" then
      -- a schema (`metaOK` inlined for structural recursion)
      match v with
      | .boolV _ => true
      | .obj o => metaKws o
      | _ => false
     else if k = "required" then
      match v with
      | .arr l => stringList l
      | _ => false
     else if k = "properties" ∨ k = "patternProperties" ∨ k = "definitions" then
      match v with
      | .obj o => metaVals o
      | _ => false
     else if k = "dependencies" then
      match v with
      | .obj o => metaDeps o
      | _ => false
     else if k = "allOf" ∨ k = "anyOf" ∨ k = "oneOf" then
      match v with
      | .arr l => l.length != 0 && metaList l
      | _ => false
     else true) && metaKws t

/-- Every element is a valid schema. -/
def metaList : JList → Bool
  | .nil => true
  | .cons h t => metaOK h && metaList t

/-- Every value is a valid schema. -/
def metaVals : JObj → Bool
  | .nil => true
  | .cons _ v t => metaOK v && metaVals t

/-- Every value is a valid schema or an array of strings (`dependencies`). -/
def metaDeps : JObj → Bool
  | .nil => true
  | .cons _ v t =>
    (match v with
     | .arr l => stringList l
     | .boolV _ => true
     | .obj o => metaKws o
     | _ => false) && metaDeps t

end

/-! ## The compiled evaluator graph

`Validation.evaluate` and the keyword compilers of `keywords.py` build a
graph of closures eagerly and return its root.  `Ev` is that graph made
explicit: each constructor records exactly the data the corresponding
Python closure captures.  `$ref` targets are compiled into the global
`validator_by_uri` memo and reached through `refV` handles, exactly as
Python reaches the memoized `Validation` objects. -/

/-- The `type_checkers` passed to `kw_deco` (the decorator arguments in
`keywords.py`). -/
inductive TChecker where
  | numC | strC | arrC | objC
  deriving DecidableEq

/-- Run a type checker on an instance. -/
def runChecker : TChecker → JSON → Bool
  | .numC => is_number
  | .strC => is_string
  | .arrC => is_array
  | .objC => is_object

/-- The decorator arguments per keyword: `@kw_deco(is_number)` etc.;
keywords decorated with plain `@kw_deco()` have no checkers. -/
def kwCheckers (k : String) : List TChecker :=
  if k = "multipleOf" ∨ k = "maximum" ∨ k = "exclusiveMaximum" ∨
     k = "minimum" ∨ k = "exclusiveMinimum" then [.numC]
  else if k = "maxLength" ∨ k = "minLength" ∨ k = "pattern" then [.strC]
  else if k = "items" ∨ k = "additionalItems" ∨ k = "maxItems" ∨
          k = "minItems" ∨ k = "uniqueItems" ∨ k = "contains" then [.arrC]
  else if k = "maxProperties" ∨ k = "minProperties" ∨ k = "required" ∨
          k = "properties" ∨ k = "patternProperties" ∨
          k = "additionalProperties" ∨ k = "dependencies" ∨
          k = "propertyNames" then [.objC]
  else []

/-- The keys of `draft7_keyword_map`, in definition order. -/
def draft7_keyword_names : List String :=
  ["definitions", "type", "enum", "const", "multipleOf", "maximum",
   "exclusiveMaximum", "minimum", "exclusiveMinimum", "maxLength",
   "minLength", "pattern", "items", "additionalItems", "maxItems",
   "minItems", "uniqueItems", "contains", "maxProperties", "minProperties",
   "required", "properties", "patternProperties", "additionalProperties",
   "dependencies", "propertyNames", "if", "then", "else", "allOf", "anyOf",
   "oneOf", "not"]

/-- The form of one `dependencies` entry: an array of property names or a
subschema.  The compiled callbacks record only the form; the data they
consult at evaluation time is the enclosing function's loop variables,
which by Python's late binding hold the values of the *last* iteration
(see `depsKw` in `evalStep`). -/
inductive DepForm where
  | listF | schemaF

/-- The compiled evaluator graph (one constructor per closure shape built
in `compilation.py` / `keywords.py`). -/
inductive Ev where
  | tru : Ev
  | fals : Ev
  | conj : List Ev → Ev
  | refV : String → Ev
  | gate : List TChecker → Ev → Ev
  | typeKw : JSON → Ev
  | enumKw : JList → Ev
  | constKw : JSON → Ev
  | multipleOfKw : JSON → Ev
  | maximumKw : JSON → Ev
  | exclMaxKw : JSON → Ev
  | minimumKw : JSON → Ev
  | exclMinKw : JSON → Ev
  | maxLenKw : JSON → Ev
  | minLenKw : JSON → Ev
  | patternKw : JSON → Ev
  | itemsListKw : List Ev → Ev
  | itemsKw : Ev → Ev
  | addItemsKw : Ev → JObj → Ev
  | maxItemsKw : JSON → Ev
  | minItemsKw : JSON → Ev
  | uniqKw : Ev
  | containsKw : Ev → Ev
  | maxPropsKw : JSON → Ev
  | minPropsKw : JSON → Ev
  | requiredKw : JSON → Ev
  | propsKw : List (String × Ev) → Ev
  | patPropsKw : List (String × Ev) → Ev
  | addPropsKw : Ev → JObj → Ev
  | depsKw : List DepForm → Option (String × JSON) → Option Ev → Ev
  | propNamesKw : Ev → Ev
  | ifKw : Ev → Ev → Ev → Ev
  | anyOfKw : List Ev → Ev
  | oneOfKw : List Ev → Ev
  | notKw : Ev → Ev

/-- Compile-time exceptions of the Python code. -/
inductive CErr where
  | invalidSchema
  | keyError : String → CErr
  | assertError
  | typeError
  | nameError
  | outOfFuel
  deriving DecidableEq

/-- `validator_by_uri`: `none` marks a `Validation` whose `init` has not
completed yet (the placeholder installed before the target is compiled). -/
abbrev VMap := List (String × Option Ev)

/-- The mutable global maps of a compilation (`global_schema_map` and
`global_validation_map`). -/
structure CState where
  smap : List (String × JSON)
  vmap : VMap

/-- Result of one compilation step. -/
abbrev CompRes := Except CErr (Ev × CState)

/-- The recursive compile function threaded through the helpers:
arguments are state, root schema, check flag, schema, base URI, ref list. -/
abbrev RecFn := CState → JSON → Bool → JSON → String → List String → CompRes

/-- The sub-compilation function a keyword compiler uses
(`validation.evaluate(subschema, uri, ref_list)` with root schema and
check flag those of the enclosing `Validation`). -/
abbrev SubFn := CState → JSON → String → List String → CompRes

/-! ## Keyword compilers (`keywords.py`) -/

/-- Compile each subschema of a list, threading the global state
(the loops of `_items` (array form) and `_all_of`/`_any_of`/`_one_of`). -/
def compileEach (sub : SubFn) (uri : String) : CState → JList →
    Except CErr (List Ev × CState)
  | st, .nil => .ok ([], st)
  | st, .cons h t =>
    match sub st h uri [] with
    | .error e => .error e
    | .ok (e, st1) =>
      match compileEach sub uri st1 t with
      | .error e => .error e
      | .ok (es, st2) => .ok (e :: es, st2)

/-- Compile each subschema of a keyword object, threading the global state
(the loops of `_properties` and `_pattern_properties`). -/
def compilePairs (sub : SubFn) (uri : String) : CState → JObj →
    Except CErr (List (String × Ev) × CState)
  | st, .nil => .ok ([], st)
  | st, .cons k v t =>
    match sub st v uri [] with
    | .error e => .error e
    | .ok (e, st1) =>
      match compilePairs sub uri st1 t with
      | .error e => .error e
      | .ok (es, st2) => .ok ((k, e) :: es, st2)

/-- The loop of `_dependencies`.  Each entry contributes a callback of its
form; the loop variables `dependency_key`, `dependency_value` and (for
schema entries) `dependency_callback` are rebound every iteration and
captured by reference, so the accumulated `lastPair`/`lastCb` are what the
callbacks will observe at evaluation time. -/
def compileDepsGo (sub : SubFn) (uri : String) (st : CState) (o : JObj)
    (lastPair : Option (String × JSON)) (lastCb : Option Ev) :
    Except CErr ((List DepForm × Option (String × JSON) × Option Ev) × CState) :=
  match o with
  | .nil => .ok (([], lastPair, lastCb), st)
  | .cons k v t =>
    match v with
    | .arr l =>
      -- assert all(isinstance(i, str) for i in dependency_value)
      if stringList l then
        match compileDepsGo sub uri st t (some (k, v)) lastCb with
        | .error e => .error e
        | .ok ((fs, lp, lc), st') => .ok ((.listF :: fs, lp, lc), st')
      else .error .assertError
    | .obj _ =>
      match sub st v uri [] with
      | .error e => .error e
      | .ok (e, st1) =>
        match compileDepsGo sub uri st1 t (some (k, v)) (some e) with
        | .error e => .error e
        | .ok ((fs, lp, lc), st2) => .ok ((.schemaF :: fs, lp, lc), st2)
    | .boolV _ =>
      match sub st v uri [] with
      | .error e => .error e
      | .ok (e, st1) =>
        match compileDepsGo sub uri st1 t (some (k, v)) (some e) with
        | .error e => .error e
        | .ok ((fs, lp, lc), st2) => .ok ((.schemaF :: fs, lp, lc), st2)
    | _ => .error .assertError  -- assert isinstance(dependency_value, (dict, bool))

/-- The body of each keyword compiler in `keywords.py` (the function the
`kw_deco` decorator wraps), dispatched on the keyword name.  `whole` is
the enclosing schema object, `v` the keyword's value; the residual
`ref_list` is empty here (`compileKw` handles the non-empty case). -/
def kwInner (sub : SubFn) (st : CState) (whole : JObj) (uri : String)
    (k : String) (v : JSON) : CompRes :=
  if k = "definitions" ∨ k = "then" ∨ k = "else" then .ok (.tru, st)
  else if k = "type" then
    -- assert isinstance(value, (str, list))
    match v with
    | .strV _ => .ok (.typeKw v, st)
    | .arr _ => .ok (.typeKw v, st)
    | _ => .error .assertError
  else if k = "enum" then
    -- assert isinstance(value, list) and len(value) >= 1
    match v with
    | .arr l => if l.length ≥ 1 then .ok (.enumKw l, st) else .error .assertError
    | _ => .error .assertError
  else if k = "const" then .ok (.constKw v, st)
  else if k = "multipleOf" then .ok (.multipleOfKw v, st)
  else if k = "maximum" then .ok (.maximumKw v, st)
  else if k = "exclusiveMaximum" then .ok (.exclMaxKw v, st)
  else if k = "minimum" then .ok (.minimumKw v, st)
  else if k = "exclusiveMinimum" then .ok (.exclMinKw v, st)
  else if k = "maxLength" then .ok (.maxLenKw v, st)
  else if k = "minLength" then .ok (.minLenKw v, st)
  else if k = "pattern" then .ok (.patternKw v, st)
  else if k = "items" then
    match v with
    | .arr l =>
      match compileEach sub uri st l with
      | .error e => .error e
      | .ok (es, st') => .ok (.itemsListKw es, st')
    | _ =>
      match sub st v uri [] with
      | .error e => .error e
      | .ok (e, st') => .ok (.itemsKw e, st')
  else if k = "additionalItems" then
    match sub st v uri [] with
    | .error e => .error e
    | .ok (e, st') => .ok (.addItemsKw e whole, st')
  else if k = "maxItems" then .ok (.maxItemsKw v, st)
  else if k = "minItems" then .ok (.minItemsKw v, st)
  else if k = "uniqueItems" then .ok (.uniqKw, st)
  else if k = "contains" then
    match sub st v uri [] with
    | .error e => .error e
    | .ok (e, st') => .ok (.containsKw e, st')
  else if k = "maxProperties" then .ok (.maxPropsKw v, st)
  else if k = "minProperties" then .ok (.minPropsKw v, st)
  else if k = "required" then .ok (.requiredKw v, st)
  else if k = "properties" then
    match v with
    | .obj o =>
      match compilePairs sub uri st o with
      | .error e => .error e
      | .ok (ps, st') => .ok (.propsKw ps, st')
    | _ => .error .typeError  -- value.items() on a non-dict
  else if k = "patternProperties" then
    match v with
    | .obj o =>
      match compilePairs sub uri st o with
      | .error e => .error e
      | .ok (ps, st') => .ok (.patPropsKw ps, st')
    | _ => .error .typeError  -- value.items() on a non-dict
  else if k = "additionalProperties" then
    match sub st v uri [] with
    | .error e => .error e
    | .ok (e, st') => .ok (.addPropsKw e whole, st')
  else if k = "dependencies" then
    -- assert isinstance(value, dict)
    match v with
    | .obj o =>
      match compileDepsGo sub uri st o none none with
      | .error e => .error e
      | .ok ((fs, lp, lc), st') => .ok (.depsKw fs lp lc, st')
    | _ => .error .assertError
  else if k = "propertyNames" then
    match sub st v uri [] with
    | .error e => .error e
    | .ok (e, st') => .ok (.propNamesKw e, st')
  else if k = "if" then
    match sub st v uri [] with
    | .error e => .error e
    | .ok (c, st1) =>
      match sub st1 ((whole.lookup "then").getD (.boolV true)) uri [] with
      | .error e => .error e
      | .ok (t, st2) =>
        match sub st2 ((whole.lookup "else").getD (.boolV true)) uri [] with
        | .error e => .error e
        | .ok (e, st3) => .ok (.ifKw c t e, st3)
  else if k = "allOf" then
    match v with
    | .arr l =>
      match compileEach sub uri st l with
      | .error e => .error e
      | .ok (es, st') => .ok (.conj es, st')
    | _ => .error .typeError  -- iterating a non-list value
  else if k = "anyOf" then
    match v with
    | .arr l =>
      match compileEach sub uri st l with
      | .error e => .error e
      | .ok (es, st') => .ok (.anyOfKw es, st')
    | _ => .error .typeError
  else if k = "oneOf" then
    match v with
    | .arr l =>
      match compileEach sub uri st l with
      | .error e => .error e
      | .ok (es, st') => .ok (.oneOfKw es, st')
    | _ => .error .typeError
  else if k = "not" then
    -- assert isinstance(value, (bool, dict))
    match v with
    | .boolV _ =>
      match sub st v uri [] with
      | .error e => .error e
      | .ok (e, st') => .ok (.notKw e, st')
    | .obj _ =>
      match sub st v uri [] with
      | .error e => .error e
      | .ok (e, st') => .ok (.notKw e, st')
    | _ => .error .assertError
  else .error .assertError  -- not a registry keyword: never dispatched here

/-- One keyword compiler as wrapped by `kw_deco`: rule R1 (a sibling `$ref`
with no residual pointer yields the constant-true evaluator), rule R2
(descend one step into the keyword's value along a non-empty residual
pointer, re-checking the subschema when `check_schema` is on), and rule R3
(wrap the inner evaluator in the type gate when the keyword declares
target types). -/
def compileKw (sub : SubFn) (chk : Bool) (st : CState) (whole : JObj)
    (uri : String) (k : String) (v : JSON) (refs : List String) : CompRes :=
  if whole.hasKey "$ref" ∧ refs = [] then .ok (.tru, st)
  else
    match refs with
    | rk :: rest =>
      match v with
      | .obj kvs =>
        match kvs.lookup rk with
        | some subschema =>
          if chk ∧ ¬ metaOK subschema then .error .invalidSchema
          else sub st subschema uri rest
        | none => .error .invalidSchema
      | .arr l =>
        if pyIsDigit rk.toList ∧ digitsToNat rk.toList < l.length then
          match l.get? (digitsToNat rk.toList) with
          | some subschema =>
            if chk ∧ ¬ metaOK subschema then .error .invalidSchema
            else sub st subschema uri rest
          | none => .error .invalidSchema
        else .error .invalidSchema
      | _ => .error .invalidSchema
    | [] =>
      match kwInner sub st whole uri k v with
      | .error e => .error e
      | .ok (inner, st') =>
        .ok ((if (kwCheckers k).isEmpty then inner else .gate (kwCheckers k) inner), st')

/-- The keyword loop of `Validation.evaluate` (case: no `$ref`, no residual
pointer): compile every member whose key is in the registry, in insertion
order, skipping unknown keywords. -/
def compileKwFold (sub : SubFn) (chk : Bool) (whole : JObj) (uri : String) :
    CState → JObj → Except CErr (List Ev × CState)
  | st, .nil => .ok ([], st)
  | st, .cons k v t =>
    if draft7_keyword_names.contains k then
      match compileKw sub chk st whole uri k v [] with
      | .error e => .error e
      | .ok (e, st1) =>
        match compileKwFold sub chk whole uri st1 t with
        | .error e => .error e
        | .ok (es, st2) => .ok (e :: es, st2)
    else compileKwFold sub chk whole uri st t

/-! ## The compiler (`compilation.py`) -/

/-- `Validation.init` minus the meta-check and `$id` registration that
precede the call to `evaluate` — see `initStep`. -/
def initEvaluate (recS : RecFn) (st : CState) (schema : JSON) (chk : Bool)
    (refs : List String) : CompRes :=
  match schema with
  | .obj kvs =>
    match kvs.lookup "$id" with
    | some (.strV rid) =>
      let absU := (split_uri rid).1
      if absU = "" then recS st schema chk schema rid refs
      else
        -- assert root_abs_uri not in map or map[root_abs_uri] == schema
        match alookup st.smap absU with
        | some existing =>
          if pyEq existing schema then
            recS { st with smap := aset st.smap absU schema } schema chk schema rid refs
          else .error .assertError
        | none =>
          recS { st with smap := aset st.smap absU schema } schema chk schema rid refs
    | some _ => .error .typeError  -- split_uri of a non-string $id
    | none => recS st schema chk schema "" refs
  | _ => recS st schema chk schema "" refs

/-- `Validation.init`: run the meta-check when `check_schema` is on,
register a root `$id`, then `evaluate` the schema against its own root with
the given residual pointer. -/
def initStep (recS : RecFn) (st : CState) (schema : JSON) (chk : Bool)
    (refs : List String) : CompRes :=
  if chk ∧ ¬ metaOK schema then .error .invalidSchema
  else initEvaluate recS st schema chk refs

/-- One unfolding of `Validation.evaluate`: boolean schemas become constant
evaluators; a schema with `$ref` and no residual pointer compiles the
reference target into the validator memo (installing the placeholder
first, then running the fresh `Validation`'s `init` with `check_schema`
off); a schema without `$ref` and no residual pointer conjoins its keyword
evaluators; a schema with a residual pointer dispatches to the named
keyword when the first token is a registry keyword present on the schema,
and otherwise follows the full pointer and compiles its target —
raising `InvalidSchemaError` when the pointer does not resolve. -/
def compileStep (recS : RecFn) (st : CState) (root : JSON) (chk : Bool)
    (schema : JSON) (base : String) (refs : List String) : CompRes :=
  match schema with
  | .boolV b => .ok (if b then .tru else .fals, st)
  | .obj kvs =>
    let curUriE : Except CErr String :=
      match kvs.lookup "$id" with
      | some v =>
        if pyTruthy v then
          match v with
          | .strV sid => .ok (urljoin base sid)
          | _ => .error .typeError  -- urljoin with a non-string $id
        else .ok base
      | none => .ok base
    match curUriE with
    | .error e => .error e
    | .ok curUri =>
      if kvs.hasKey "$ref" ∧ refs = [] then
        match kvs.lookup "$ref" with
        | some (.strV r) =>
          let refUri := urljoin curUri r
          if (alookup st.vmap refUri).isSome then .ok (.refV refUri, st)
          else
            let (absU, frag) := split_uri refUri
            let refSchemaE : Except CErr JSON :=
              if absU = "" then .ok root
              else
                match alookup st.smap absU with
                | some s => .ok s
                | none => .error (.keyError absU)  -- dict KeyError, not InvalidSchemaError
            match refSchemaE with
            | .error e => .error e
            | .ok refSchema =>
              let st1 : CState := { st with vmap := aset st.vmap refUri none }
              match initStep recS st1 refSchema false (parse_json_pointer frag) with
              | .error e => .error e
              | .ok (body, st2) =>
                .ok (.refV refUri, { st2 with vmap := aset st2.vmap refUri (some body) })
        | _ => .error .typeError  -- urljoin with a non-string $ref
      else if ¬ kvs.hasKey "$ref" ∧ refs = [] then
        match compileKwFold (fun st' sch uri rl => recS st' root chk sch uri rl)
            chk kvs curUri st kvs with
        | .error e => .error e
        | .ok (es, st') => .ok (.conj es, st')
      else
        match refs with
        | [] => .error .assertError  -- unreachable: assert ref_list
        | rk :: rest =>
          if draft7_keyword_names.contains rk ∧ kvs.hasKey rk then
            match kvs.lookup rk with
            | some v =>
              compileKw (fun st' sch uri rl => recS st' root chk sch uri rl)
                chk st kvs curUri rk v rest
            | none => .error .assertError  -- unreachable: hasKey holds
          else
            match evaluate_tokens (.obj kvs) refs with
            | (true, target) => recS st root chk target curUri []
            | (false, _) => .error .invalidSchema
  | _ => .error .assertError  -- assert isinstance(schema, dict)

/-- The recursive compiler: fuel bounds the Python recursion depth. -/
def compileS : Nat → CState → JSON → Bool → JSON → String → List String → CompRes
  | 0, _, _, _, _, _, _ => .error .outOfFuel
  | fuel + 1, st, root, chk, schema, base, refs =>
    compileStep (compileS fuel) st root chk schema base refs

/-- The draft-07 meta-schema URI under which `compile` seeds
`global_schema_map`. -/
def draft7_meta_uri : String := "http://json-schema.org/draft-07/schema"

/-- `compilation.compile(schema, remote_schemas=…, check_schema=True)` with
the default keyword map: assert the schema is a dict or bool, seed the
global schema map with the meta-schema and the remote schemas, then run a
fresh `Validation`'s `init`. -/
def compileWith (fuel : Nat) (remotes : List (String × JSON)) (schema : JSON) :
    CompRes :=
  match schema with
  | .obj _ =>
    initStep (compileS fuel)
      { smap := remotes.foldl (fun m kv => aset m kv.1 kv.2)
          [(draft7_meta_uri, draft7_meta_schema)],
        vmap := [] } schema true []
  | .boolV _ =>
    initStep (compileS fuel)
      { smap := remotes.foldl (fun m kv => aset m kv.1 kv.2)
          [(draft7_meta_uri, draft7_meta_schema)],
        vmap := [] } schema true []
  | _ => .error .assertError  -- assert isinstance(schema, (dict, bool))

/-- `compile` with no remote schemas (the form every claim uses). -/
def compileTop (fuel : Nat) (schema : JSON) : CompRes :=
  compileWith fuel [] schema

/-! ## Evaluation of the compiled graph

`evalEv` runs a compiled evaluator on an instance.  `none` models both a
Python exception raised at evaluation time and non-termination (fuel
exhaustion); `some b` is the boolean verdict.  The combinators distinguish
the two looping styles of `keywords.py`: an `all([f(x) for f in fs])`
comprehension evaluates every callback before aggregating (a raise
anywhere propagates even after a `False`), while an explicit
`for … return False` loop stops at the first failure. -/

/-- `all([g(x) for x in l])`: evaluate everything, then aggregate. -/
def compAllWith {α : Type} (g : α → Option Bool) (l : List α) : Option Bool :=
  let rs := l.map g
  if rs.any Option.isNone then none else some (rs.all (fun r => r == some true))

/-- `any([g(x) for x in l])`: evaluate everything, then aggregate. -/
def compAnyWith {α : Type} (g : α → Option Bool) (l : List α) : Option Bool :=
  let rs := l.map g
  if rs.any Option.isNone then none else some (rs.any (fun r => r == some true))

/-- A `for` loop returning `False` at the first failing element. -/
def loopAllWith {α : Type} (g : α → Option Bool) : List α → Option Bool
  | [] => some true
  | x :: xs =>
    match g x with
    | none => none
    | some false => some false
    | some true => loopAllWith g xs

/-- A `for` loop returning `True` at the first succeeding element. -/
def loopAnyWith {α : Type} (g : α → Option Bool) : List α → Option Bool
  | [] => some false
  | x :: xs =>
    match g x with
    | none => none
    | some true => some true
    | some false => loopAnyWith g xs

/-- `len(x)`: defined on strings, lists and dicts. -/
def pyLen : JSON → Option Nat
  | .strV s => some s.length
  | .arr l => some l.length
  | .obj o => some o.length
  | _ => none

/-- A numeric comparison `op instance value`; `none` models the `TypeError`
of comparing with a non-number. -/
def cmpNum (x v : JSON) (op : Rat → Rat → Bool) : Option Bool :=
  match pyNum? x, pyNum? v with
  | some p, some q => some (op p q)
  | _, _ => none

/-- A length bound `len(instance) op value`. -/
def cmpLen (x v : JSON) (op : Rat → Rat → Bool) : Option Bool :=
  match pyLen x, pyNum? v with
  | some n, some q => some (op (n : Rat) q)
  | _, _ => none

/-- Modelled from the standard library: `re.search(pattern, s)` restricted
to literal patterns (no regex metacharacters): true iff the pattern occurs
as a contiguous substring.  No claim settled below exercises a non-literal
pattern. -/
def listIsPre : List Char → List Char → Bool
  | [], _ => true
  | _ :: _, [] => false
  | a :: as, b :: bs => a == b && listIsPre as bs

/-- Substring occurrence (see `listIsPre`). -/
def listInfix (p : List Char) : List Char → Bool
  | [] => listIsPre p []
  | c :: rest => listIsPre p (c :: rest) || listInfix p rest

/-- `re.search` on literal patterns (see `listIsPre`). -/
def reSearch (pat s : String) : Bool := listInfix pat.toList s.toList

/-- The `_enum` loop: `for item in value: if instance == item: return True`. -/
def enumHas : JList → JSON → Bool
  | .nil, _ => false
  | .cons h t, x => pyEq x h || enumHas t x

/-- The `_unique_items` loop over `itertools.combinations(instance, 2)`:
some pair with equal Python type and equal value falsifies. -/
def uniqCheck : List JSON → Bool
  | [] => true
  | x :: xs =>
    xs.all (fun y => !(decide (pyType x = pyType y) && pyEq x y)) && uniqCheck xs

/-- All elements name keys of the instance (`_required`; non-string
elements are never dict keys, so their membership test is `False`). -/
def allKeysPresent (o : JObj) (l : List JSON) : Bool :=
  l.all fun e =>
    match e with
    | .strV k => o.hasKey k
    | _ => false

/-- One evaluation step, dispatching on the closure shape; `recE` evaluates
subsidiary closures. -/
def evalStep (recE : Ev → JSON → Option Bool) (vmap : VMap) (ev : Ev)
    (x : JSON) : Option Bool :=
  match ev with
  | .tru => some true
  | .fals => some false
  | .conj es => compAllWith (fun e => recE e x) es
  | .refV u =>
    -- calling the memoized Validation handle
    match alookup vmap u with
    | some (some body) => recE body x
    | _ => none
  | .gate cs inner =>
    -- kw_deco's new_callback: first matching checker delegates, none matches → True
    if cs.any (fun c => runChecker c x) then recE inner x else some true
  | .typeKw v =>
    match v with
    | .strV n => (type_map n).map (fun p => p x)
    | .arr l =>
      compAnyWith
        (fun e =>
          match e with
          | .strV n => (type_map n).map (fun p => p x)
          | _ => none)  -- type_map KeyError on a non-string name
        l.toList
    | _ => none
  | .enumKw l => some (enumHas l x)
  | .constKw v => some (pyEq x v)
  | .multipleOfKw v =>
    -- (instance / value).is_integer()
    match pyNum? x, pyNum? v with
    | some p, some q => if q = 0 then none else some ((p / q).den == 1)
    | _, _ => none
  | .maximumKw v => cmpNum x v (fun p q => decide (p ≤ q))
  | .exclMaxKw v => cmpNum x v (fun p q => decide (p < q))
  | .minimumKw v => cmpNum x v (fun p q => decide (q ≤ p))
  | .exclMinKw v => cmpNum x v (fun p q => decide (q < p))
  | .maxLenKw v => cmpLen x v (fun p q => decide (p ≤ q))
  | .minLenKw v => cmpLen x v (fun p q => decide (q ≤ p))
  | .patternKw v =>
    match v, x with
    | .strV pat, .strV s => some (reSearch pat s)
    | _, _ => none  -- re.search TypeError
  | .itemsListKw es =>
    match x with
    | .arr l => loopAllWith (fun pe => recE pe.1 pe.2) (es.zip l.toList)
    | _ => none
  | .itemsKw e =>
    match x with
    | .arr l => loopAllWith (fun xi => recE e xi) l.toList
    | _ => none
  | .addItemsKw e whole =>
    match x with
    | .arr l =>
      match whole.lookup "items" with
      | some (.arr il) =>
        if il.length < l.length then
          loopAllWith (fun xi => recE e xi) (l.toList.drop il.length)
        else some true
      | _ => some true
    | _ => none
  | .maxItemsKw v => cmpLen x v (fun p q => decide (p ≤ q))
  | .minItemsKw v => cmpLen x v (fun p q => decide (q ≤ p))
  | .uniqKw =>
    match x with
    | .arr l => some (uniqCheck l.toList)
    | _ => none
  | .containsKw e =>
    match x with
    | .arr l => loopAnyWith (fun xi => recE e xi) l.toList
    | _ => none
  | .maxPropsKw v =>
    match x with
    | .obj o =>
      match pyNum? v with
      | some q => some (decide ((o.length : Rat) ≤ q))
      | none => none
    | _ => none  -- instance.keys() on a non-dict
  | .minPropsKw v =>
    match x with
    | .obj o =>
      match pyNum? v with
      | some q => some (decide (q ≤ (o.length : Rat)))
      | none => none
    | _ => none
  | .requiredKw v =>
    match x with
    | .obj o =>
      match v with
      | .arr l => some (allKeysPresent o l.toList)
      | _ => none  -- iterating a non-list value
    | _ => none  -- assert isinstance(instance, dict)
  | .propsKw ps =>
    match x with
    | .obj o =>
      loopAllWith
        (fun pe =>
          match o.lookup pe.1 with
          | some sub => recE pe.2 sub
          | none => some true)
        ps
    | _ => none
  | .patPropsKw ps =>
    match x with
    | .obj o =>
      loopAllWith
        (fun pe =>
          loopAllWith
            (fun kv =>
              if reSearch pe.1 kv.1 then recE pe.2 kv.2 else some true)
            o.toList)
        ps
    | _ => none
  | .addPropsKw e whole =>
    match x with
    | .obj o =>
      loopAllWith
        (fun kv =>
          -- skip keys named by `properties` …
          if (match whole.lookup "properties" with
              | some (.obj p) => p.hasKey kv.1
              | _ => false) then some true
          -- … and keys matched by some `patternProperties` regex
          else if (match whole.lookup "patternProperties" with
              | some (.obj pp) => pp.keys.any (fun pat => reSearch pat kv.1)
              | _ => false) then some true
          else recE e kv.2)
        o.toList
    | _ => none
  | .depsKw forms lastPair lastCb =>
    match x with
    | .obj o =>
      compAllWith
        (fun fm =>
          match fm with
          | DepForm.listF =>
            -- reads the loop variables, late-bound to the last entry
            match lastPair with
            | some (k, lv) =>
              if o.hasKey k then
                match lv with
                | .arr l => some (allKeysPresent o l.toList)
                | .obj kvs => some (kvs.keys.all (fun kk => o.hasKey kk))
                | _ => none  -- iterating a non-iterable dependency value
              else some true
            | none => none  -- NameError: no iteration ever ran
          | DepForm.schemaF =>
            match lastPair with
            | some (k, _) =>
              if o.hasKey k then
                match lastCb with
                | some e => recE e x
                | none => none  -- NameError: no schema entry ever compiled
              else some true
            | none => none)
        forms
    | _ => none
  | .propNamesKw e =>
    match x with
    | .obj o => compAllWith (fun kk => recE e (.strV kk)) o.keys
    | _ => none
  | .ifKw c t e =>
    match recE c x with
    | some true => recE t x
    | some false => recE e x
    | none => none
  | .anyOfKw es => compAnyWith (fun e => recE e x) es
  | .oneOfKw es =>
    let rs := es.map (fun e => recE e x)
    if rs.any Option.isNone then none
    else some ((rs.filter (fun r => r == some true)).length == 1)
  | .notKw e => (recE e x).map (fun b => !b)

/-- Run a compiled evaluator; fuel bounds the Python recursion depth. -/
def evalEv : Nat → VMap → Ev → JSON → Option Bool
  | 0, _, _, _ => none
  | fuel + 1, vmap, ev, x => evalStep (evalEv fuel vmap) vmap ev x

/-- Apply the validator returned by `compile` to an instance
(`validation(instance)`); `none` when compilation failed. -/
def runCompiled (fuel : Nat) (r : CompRes) (x : JSON) : Option Bool :=
  match r with
  | .ok (e, st) => evalEv fuel st.vmap e x
  | .error _ => none

/-- The exception a compilation raised, if any. -/
def errOf (r : CompRes) : Option CErr :=
  match r with
  | .error e => some e
  | .ok _ => none

/-! ## Theorems settling the claims -/

/-- C1 (counterexample): `compile({"$ref": "http://example.com/schema"})` —
a `$ref` to an absolute URI absent from the seeded `schema_by_uri` map —
does not raise `InvalidSchemaError` as the claim states: it raises the
`KeyError` of the bare dict lookup `global_schema_map[ref_abs_uri]`. -/
theorem C1_counterexample :
    errOf (compileTop 30 (jobj [("$ref", .strV "http://example.com/schema")])) =
      some (.keyError "http://example.com/schema") ∧
    errOf (compileTop 30 (jobj [("$ref", .strV "http://example.com/schema")])) ≠
      some .invalidSchema := by
  constructor
  · rfl
  · intro h
    simp only [show errOf (compileTop 30
      (jobj [("$ref", .strV "http://example.com/schema")])) =
      some (.keyError "http://example.com/schema") from rfl] at h
    simp at h

/-- C2 (code evaluation at the failing input): with
`dependencies: {"a": ["b"], "c": ["d"]}` the instance `{"a": 1}` is
*accepted* — the claim says it must be rejected because `"b"` is missing.
The compiled per-entry callbacks capture the loop variables
`dependency_key`/`dependency_value` by reference, so after the loop every
array-form callback checks the last entry `("c", ["d"])`; `"c"` is absent
from the instance, so every callback succeeds.  A single-entry
`dependencies` map behaves as the claim describes. -/
theorem C2_code_eval :
    runCompiled 30 (compileTop 30 (jobj [("dependencies",
        jobj [("a", jarr [.strV "b"]), ("c", jarr [.strV "d"])])]))
      (jobj [("a", .intV 1)]) = some true ∧
    runCompiled 30 (compileTop 30 (jobj [("dependencies",
        jobj [("a", jarr [.strV "b"])])]))
      (jobj [("a", .intV 1)]) = some false := by
  exact ⟨rfl, rfl⟩

/-- C3 (code evaluation at the failing inputs): `_const` and `_enum`
compare with plain Python `==`, under which `True == 1` and `False == 0`;
so `compile({"const": 1})(true)` and `compile({"enum": [0, 1]})(false)`
both return `true`, where the claim requires `false` (booleans distinct
from numbers).  Reflexivity on an equal-typed value still holds. -/
theorem C3_code_eval :
    runCompiled 30 (compileTop 30 (jobj [("const", .intV 1)]))
      (.boolV true) = some true ∧
    runCompiled 30 (compileTop 30 (jobj [("enum", jarr [.intV 0, .intV 1])]))
      (.boolV false) = some true ∧
    runCompiled 30 (compileTop 30 (jobj [("const", .intV 1)]))
      (.intV 1) = some true := by
  exact ⟨rfl, rfl, rfl⟩

/-- C6 (counterexample): for the self-recursive schema
`{"properties": {"child": {"$ref": "#"}}}`, the instance `{"child": 5}` is
*accepted* (`true`), not rejected as the claim states: the root schema
constrains only the `child` member of objects, and the referenced root
evaluator type-gates `properties` to objects, so the number `5` passes. -/
theorem C6_counterexample :
    runCompiled 30 (compileTop 30
        (jobj [("properties", jobj [("child", jobj [("$ref", .strV "#")])])]))
      (jobj [("child", .intV 5)]) = some true ∧
    runCompiled 30 (compileTop 30
        (jobj [("properties", jobj [("child", jobj [("$ref", .strV "#")])])]))
      (jobj [("child", .intV 5)]) ≠ some false := by
  refine ⟨rfl, ?_⟩
  intro h
  simp only [show runCompiled 30 (compileTop 30
      (jobj [("properties", jobj [("child", jobj [("$ref", .strV "#")])])]))
      (jobj [("child", .intV 5)]) = some true from rfl] at h
  simp at h

/-- C6 (amended): the self-recursive schema
`{"properties": {"child": {"$ref": "#"}}}` compiles — the cyclic `$ref` is
resolved through the validator memo — and the resulting validator returns
`true` both on `{"child": {"child": {}}}` and on `{"child": 5}` (a
non-object `child` trivially satisfies the root schema). -/
theorem C6_amended :
    (compileTop 30
        (jobj [("properties", jobj [("child", jobj [("$ref", .strV "#")])])])).isOk
      = true ∧
    runCompiled 30 (compileTop 30
        (jobj [("properties", jobj [("child", jobj [("$ref", .strV "#")])])]))
      (jobj [("child", jobj [("child", jobj [])])]) = some true ∧
    runCompiled 30 (compileTop 30
        (jobj [("properties", jobj [("child", jobj [("$ref", .strV "#")])])]))
      (jobj [("child", .intV 5)]) = some true := by
  exact ⟨rfl, rfl, rfl⟩

/-- C7 (counterexample): `compile({"uniqueItems": true})([1, 1.0])` returns
`true` — the two elements are JSON-equal numbers, but `_unique_items`
compares `type(a) == type(b)` with Python types, and `int` differs from
`float`, so the claim's required rejection does not happen. -/
theorem C7_counterexample :
    runCompiled 30 (compileTop 30 (jobj [("uniqueItems", .boolV true)]))
      (jarr [.intV 1, .floatV 1]) = some true ∧
    runCompiled 30 (compileTop 30 (jobj [("uniqueItems", .boolV true)]))
      (jarr [.intV 1, .floatV 1]) ≠ some false := by
  refine ⟨rfl, ?_⟩
  intro h
  simp only [show runCompiled 30 (compileTop 30
      (jobj [("uniqueItems", .boolV true)]))
      (jarr [.intV 1, .floatV 1]) = some true from rfl] at h
  simp at h

/-- C8: with `check_schema` on (the default), the root schema is validated
against the Draft-07 meta-schema before compilation:
`compile({"minItems": 0})` succeeds and accepts the empty array, while
`compile({"minItems": -1})` raises `InvalidSchemaError` because the
meta-schema rejects a negative `minItems`. -/
theorem C8_check_schema :
    runCompiled 30 (compileTop 30 (jobj [("minItems", .intV 0)]))
      (jarr []) = some true ∧
    errOf (compileTop 30 (jobj [("minItems", .intV (-1))])) =
      some .invalidSchema := by
  exact ⟨rfl, rfl⟩

/-- C10: the `uniqueItems` evaluator never inspects the keyword's boolean
value — compiling `{"uniqueItems": false}` produces exactly the same
result as compiling `{"uniqueItems": true}` (so the verdicts agree on
every instance at every fuel), and in particular
`compile({"uniqueItems": false})([1, 1])` is `false`: uniqueness is still
enforced. -/
theorem C10_unique_items_value_ignored :
    compileTop 30 (jobj [("uniqueItems", .boolV false)]) =
      compileTop 30 (jobj [("uniqueItems", .boolV true)]) ∧
    (∀ (f : Nat) (x : JSON),
      runCompiled f (compileTop 30 (jobj [("uniqueItems", .boolV false)])) x =
      runCompiled f (compileTop 30 (jobj [("uniqueItems", .boolV true)])) x) ∧
    runCompiled 30 (compileTop 30 (jobj [("uniqueItems", .boolV false)]))
      (jarr [.intV 1, .intV 1]) = some false := by
  refine ⟨rfl, ?_, rfl⟩
  intro f x
  rfl

/-- C10 (witness): the verdict equality at a concrete fuel and instance. -/
theorem C10_witness :
    runCompiled 5 (compileTop 30 (jobj [("uniqueItems", .boolV false)]))
        (jarr [.boolV true, .boolV true]) =
      runCompiled 5 (compileTop 30 (jobj [("uniqueItems", .boolV true)]))
        (jarr [.boolV true, .boolV true]) :=
  C10_unique_items_value_ignored.2.1 5 (jarr [.boolV true, .boolV true])

/-- C5 (counterexample): the negation law fails for schemas that reach the
document root through `$ref`.  With `S = {"properties": {"a": {"$ref":
"#"}}}` and `x = {"a": 5}`, both `compile(S)` and `compile({"not": S})`
succeed and terminate on `x`, yet both return `true`: inside
`{"not": S}` the `$ref "#"` target is `{"not": S}` itself, not `S`, so
the verdict is not the negation of `compile(S)(x)`. -/
theorem C5_counterexample :
    runCompiled 30 (compileTop 30
        (jobj [("not", jobj [("properties",
          jobj [("a", jobj [("$ref", .strV "#")])])])]))
      (jobj [("a", .intV 5)]) = some true ∧
    runCompiled 30 (compileTop 30
        (jobj [("properties", jobj [("a", jobj [("$ref", .strV "#")])])]))
      (jobj [("a", .intV 5)]) = some true := by
  exact ⟨rfl, rfl⟩

/-- C9: JSON Pointer parsing unescapes each token by replacing `~1` with
`/` first and then `~0` with `~` (so the token `~01` denotes the key `~1`,
not `/`), strips a leading `#` with percent-decoding, and treats empty
input and `"#"` as the empty token sequence; consequently, for any
document with a key `m~n`, `evaluate(doc, "/m~0n")` and
`evaluate(doc, "#/m~0n")` both resolve successfully to `doc["m~n"]`, and
`evaluate({"~1": 1, "/": 2}, "~01")` resolves to `1`. -/
theorem C9_json_pointer (d : JObj) (v : JSON) (h : d.lookup "m~n" = some v) :
    parse_json_pointer "" = [] ∧
    parse_json_pointer "#" = [] ∧
    parse_json_pointer "~01" = ["~1"] ∧
    JsonPointer.evaluate (.obj d) "/m~0n" = (true, v) ∧
    JsonPointer.evaluate (.obj d) "#/m~0n" = (true, v) ∧
    JsonPointer.evaluate (jobj [("~1", .intV 1), ("/", .intV 2)]) "~01" =
      (true, .intV 1) := by
  refine ⟨rfl, rfl, rfl, ?_, ?_, rfl⟩
  · show evaluate_tokens (.obj d) (parse_json_pointer "/m~0n") = (true, v)
    rw [show parse_json_pointer "/m~0n" = ["m~n"] from rfl]
    simp [evaluate_tokens, h]
  · show evaluate_tokens (.obj d) (parse_json_pointer "#/m~0n") = (true, v)
    rw [show parse_json_pointer "#/m~0n" = ["m~n"] from rfl]
    simp [evaluate_tokens, h]

/-- C9 (witness): the RFC 6901 document restricted to its `m~n` member. -/
theorem C9_witness :
    JsonPointer.evaluate (.obj (JObj.ofList [("m~n", .intV 8)])) "/m~0n" =
      (true, .intV 8) :=
  (C9_json_pointer (JObj.ofList [("m~n", .intV 8)]) (.intV 8) rfl).2.2.2.1

/-- C4 (type-gating law): for every keyword `K` in the Draft-07 registry
that is tagged with target types (the `kw_deco` checker arguments), every
value `v` such that `compile({K: v})` succeeds, and every instance `x`
whose type matches none of the target types, the compiled validator
returns `true` on `x`. -/
theorem C4_type_gating (fc fe : Nat) (K : String) (v x : JSON) (E : Ev) (st : CState)
    (hk : K ∈ draft7_keyword_names)
    (hc : kwCheckers K ≠ [])
    (hcomp : compileTop fc (jobj [(K, v)]) = .ok (E, st))
    (hx : ∀ c ∈ kwCheckers K, runChecker c x = false) :
    evalEv (fe + 2) st.vmap E x = some true := by
  have hnot : K ≠ "$id" ∧ K ≠ "$ref" := by
    have hall : draft7_keyword_names.all (fun n => n != "$id" && n != "$ref") = true := by
      decide
    have := List.all_eq_true.mp hall K hk
    simpa using this
  have hid : (K == "$id") = false := by simp [hnot.1]
  have href : (K == "$ref") = false := by simp [hnot.2]
  have hcont : draft7_keyword_names.contains K = true := List.elem_iff.mpr hk
  -- peel the compile layers off hcomp
  rw [show jobj [(K, v)] = .obj (.cons K v .nil) from rfl] at hcomp
  unfold compileTop compileWith at hcomp
  simp only [] at hcomp
  unfold initStep at hcomp
  by_cases hm : metaOK (.obj (.cons K v .nil))
  swap
  · simp [hm] at hcomp
  rw [if_neg (by simp [hm])] at hcomp
  unfold initEvaluate at hcomp
  simp only [JObj.lookup, hid, if_neg] at hcomp
  cases fc with
  | zero => exact absurd hcomp (by simp [compileS])
  | succ g =>
    unfold compileS compileStep at hcomp
    simp only [Bool.false_eq_true, if_false, JObj.hasKey, JObj.lookup, hid, href,
      Option.isSome] at hcomp
    simp only [false_and, if_false, not_false_eq_true, true_and, if_true] at hcomp
    unfold compileKwFold at hcomp
    rw [if_pos hcont] at hcomp
    cases hkw : compileKw
        (fun st' sch uri rl => compileS g st' (.obj (.cons K v .nil)) true sch uri rl)
        true
        { smap := List.foldl (fun m (kv : String × JSON) => aset m kv.1 kv.2)
            [(draft7_meta_uri, draft7_meta_schema)] [], vmap := [] }
        (.cons K v .nil) "" K v [] with
    | error e =>
      rw [hkw] at hcomp
      exact Except.noConfusion (show (Except.error e : CompRes) = .ok (E, st) from hcomp)
    | ok p =>
      obtain ⟨e0, st1⟩ := p
      rw [hkw] at hcomp
      have hcomp2 : (Except.ok (Ev.conj [e0], st1) : CompRes) = .ok (E, st) := hcomp
      have hE : E = Ev.conj [e0] ∧ st = st1 := by
        have := Except.ok.inj hcomp2
        exact ⟨(Prod.mk.injEq _ _ _ _ ▸ this).1.symm, (Prod.mk.injEq _ _ _ _ ▸ this).2.symm⟩
      -- analyze compileKw
      unfold compileKw at hkw
      rw [if_neg (by simp [JObj.hasKey, JObj.lookup, href])] at hkw
      cases hki : kwInner
          (fun st' sch uri rl => compileS g st' (.obj (.cons K v .nil)) true sch uri rl)
          { smap := List.foldl (fun m (kv : String × JSON) => aset m kv.1 kv.2)
              [(draft7_meta_uri, draft7_meta_schema)] [], vmap := [] }
          (.cons K v .nil) "" K v with
      | error e =>
        rw [hki] at hkw
        exact Except.noConfusion
          (show (Except.error e : CompRes) = .ok (e0, st1) from hkw)
      | ok p2 =>
        obtain ⟨inner, st2⟩ := p2
        rw [hki] at hkw
        have hkw2 : (Except.ok
            ((if (kwCheckers K).isEmpty then inner else .gate (kwCheckers K) inner), st2) :
            CompRes) = .ok (e0, st1) := hkw
        have hemp : (kwCheckers K).isEmpty = false := by
          simp [List.isEmpty_iff]; exact hc
        rw [hemp] at hkw2
        have he0 : e0 = .gate (kwCheckers K) inner ∧ st1 = st2 := by
          have := Except.ok.inj hkw2
          exact ⟨(Prod.mk.injEq _ _ _ _ ▸ this).1.symm, (Prod.mk.injEq _ _ _ _ ▸ this).2.symm⟩
        rw [hE.1, hE.2, he0.1]
        -- evaluate: the conjunction of the single gated evaluator
        have hany : (kwCheckers K).any (fun c => runChecker c x) = false := by
          simp [List.any_eq_false]; exact hx
        have hgate : evalEv (fe + 1) st1.vmap (Ev.gate (kwCheckers K) inner) x = some true := by
          show (if (kwCheckers K).any (fun c => runChecker c x) = true
                then evalEv fe st1.vmap inner x else some true) = some true
          rw [hany]
          simp
        show compAllWith (fun e => evalEv (fe + 1) st1.vmap e x)
          [Ev.gate (kwCheckers K) inner] = some true
        simp [compAllWith, hgate]

/-- C4 (witness): `compile({"maxLength": 3})` accepts the number `5`. -/
theorem C4_witness :
    runCompiled 10 (compileTop 30 (jobj [("maxLength", .intV 3)])) (.intV 5) =
      some true := by
  have h := C4_type_gating 30 8 "maxLength" (.intV 3) (.intV 5)
    (.conj [.gate [.strC] (.maxLenKw (.intV 3))])
    { smap := [(draft7_meta_uri, draft7_meta_schema)], vmap := [] }
    (by decide) (by decide) rfl (by decide)
  exact h

/-- Specification-side reading of the amended C7 verdict: no two elements
of the array are Python-equal with identical Python (host-language) type —
`int`, `float` and `bool` are three distinct types here, so `[1, 1.0]` and
`[1, true]` are both "unique". -/
def pairwiseDistinctPy (l : List JSON) : Prop :=
  l.Pairwise fun a b => ¬(pyType a = pyType b ∧ pyEq a b = true)

instance (l : List JSON) : Decidable (pairwiseDistinctPy l) := by
  unfold pairwiseDistinctPy
  exact List.instDecidablePairwise l

/-- The `_unique_items` loop computes exactly the pairwise-distinct
predicate. -/
theorem uniqCheck_iff (l : List JSON) :
    uniqCheck l = true ↔ pairwiseDistinctPy l := by
  induction l with
  | nil => simp [uniqCheck, pairwiseDistinctPy]
  | cons x rest ih =>
    unfold pairwiseDistinctPy at *
    simp only [uniqCheck, List.pairwise_cons, Bool.and_eq_true, List.all_eq_true]
    constructor
    · rintro ⟨h1, h2⟩
      refine ⟨fun y hy => ?_, ih.mp h2⟩
      have := h1 y hy
      simp only [Bool.not_eq_eq_eq_not, Bool.not_true, Bool.and_eq_false_iff] at this
      rintro ⟨hty, heq⟩
      rcases this with h | h
      · rw [decide_eq_false_iff_not] at h; exact h hty
      · rw [heq] at h; cases h
    · rintro ⟨h1, h2⟩
      refine ⟨fun y hy => ?_, ih.mpr h2⟩
      have := h1 y hy
      simp only [Bool.not_eq_eq_eq_not, Bool.not_true, Bool.and_eq_false_iff]
      by_cases hty : pyType x = pyType y
      · right
        cases heq : pyEq x y
        · rfl
        · exact absurd ⟨hty, heq⟩ this
      · left; exact decide_eq_false_iff_not.mpr hty

/-- Evaluating a singleton conjunction is evaluating its element. -/
theorem evalEv_conj_single (f : Nat) (vm : VMap) (e : Ev) (x : JSON) :
    evalEv (f + 1) vm (.conj [e]) x = evalEv f vm e x := by
  show compAllWith (fun e' => evalEv f vm e' x) [e] = evalEv f vm e x
  unfold compAllWith
  cases h : evalEv f vm e x with
  | none => simp [h]
  | some b => cases b <;> simp [h]

/-- A type gate whose checker list matches the instance delegates inward. -/
theorem evalEv_gate_arr (f : Nat) (vm : VMap) (inner : Ev) (l : JList) :
    evalEv (f + 1) vm (.gate [.arrC] inner) (.arr l) = evalEv f vm inner (.arr l) := by
  show (if ([TChecker.arrC]).any (fun c => runChecker c (.arr l)) = true
        then evalEv f vm inner (.arr l) else some true) = evalEv f vm inner (.arr l)
  simp [runChecker, is_array]

/-- C7 (amended): for `uniqueItems: true` and every array instance, the
verdict is `true` iff no two elements are Python-equal *of the same Python
type* (`int`, `float` and `bool` being distinct): `[1, true]` and
`[1, 1.0]` are accepted (`bool`/`int` and `int`/`float` differ as types),
while `[1, 1]` is rejected. -/
theorem C7_amended (f : Nat) (l : JList) :
    runCompiled (f + 3) (compileTop 30 (jobj [("uniqueItems", .boolV true)]))
      (.arr l) = some (decide (pairwiseDistinctPy l.toList)) ∧
    runCompiled 30 (compileTop 30 (jobj [("uniqueItems", .boolV true)]))
      (jarr [.intV 1, .boolV true]) = some true ∧
    runCompiled 30 (compileTop 30 (jobj [("uniqueItems", .boolV true)]))
      (jarr [.intV 1, .floatV 1]) = some true ∧
    runCompiled 30 (compileTop 30 (jobj [("uniqueItems", .boolV true)]))
      (jarr [.intV 1, .intV 1]) = some false := by
  refine ⟨?_, rfl, rfl, rfl⟩
  have key : runCompiled (f + 3)
      (compileTop 30 (jobj [("uniqueItems", .boolV true)])) (.arr l) =
      some (uniqCheck l.toList) := by
    show evalEv (f + 3) [] (.conj [.gate [.arrC] .uniqKw]) (.arr l) =
      some (uniqCheck l.toList)
    rw [show f + 3 = (f + 2) + 1 from rfl, evalEv_conj_single,
      show f + 2 = (f + 1) + 1 from rfl, evalEv_gate_arr]
    rfl
  rw [key]
  congr 1
  by_cases h : pairwiseDistinctPy l.toList
  · rw [(uniqCheck_iff l.toList).mpr h]
    exact (decide_eq_true_eq.mpr h).symm
  · have h1 : uniqCheck l.toList = false := by
      cases hu : uniqCheck l.toList
      · rfl
      · exact absurd ((uniqCheck_iff l.toList).mp hu) h
    rw [h1]
    exact (decide_eq_false_iff_not.mpr h).symm

/-- C7 (amended, witness): the general verdict at `[1, 1]`. -/
theorem C7_amended_witness :
    runCompiled 3 (compileTop 30 (jobj [("uniqueItems", .boolV true)]))
      (.arr (JList.ofList [.intV 1, .intV 1])) =
      some (decide (pairwiseDistinctPy (JList.ofList [.intV 1, .intV 1]).toList)) :=
  (C7_amended 0 (JList.ofList [.intV 1, .intV 1])).1

/-- `urllib.parse.unquote` is the identity on percent-free strings. -/
theorem pyUnquote_id (cs : List Char) (h : ∀ c ∈ cs, c ≠ '%') :
    pyUnquote cs = cs := by
  induction cs with
  | nil => rfl
  | cons c rest ih =>
    match rest with
    | [] => rfl
    | [c1] => rfl
    | c1 :: c2 :: rest2 =>
      have hc : c ≠ '%' := h c (by simp)
      have ih2 := ih (fun d hd => h d (by simp [hd]))
      simp only [pyUnquote, if_neg hc]
      rw [ih2]

theorem replace2_id (a1 a2 r : Char) (cs : List Char) (h : ∀ c ∈ cs, c ≠ a1) :
    replace2 a1 a2 r cs = cs := by
  induction cs with
  | nil => rfl
  | cons c rest ih =>
    match rest with
    | [] => rfl
    | c1 :: rest2 =>
      have hc : c ≠ a1 := h c (by simp)
      have ih2 := ih (fun d hd => h d (by simp [hd]))
      show (if c = a1 ∧ c1 = a2 then r :: replace2 a1 a2 r rest2
            else c :: replace2 a1 a2 r (c1 :: rest2)) = c :: c1 :: rest2
      rw [if_neg (fun hand => hc hand.1), ih2]

theorem splitOnChar_id (sep : Char) (cs : List Char) (h : ∀ c ∈ cs, c ≠ sep) :
    splitOnChar sep cs = [cs] := by
  induction cs with
  | nil => rfl
  | cons c rest ih =>
    have hc : c ≠ sep := h c (by simp)
    have ih2 := ih (fun d hd => h d (by simp [hd]))
    simp only [splitOnChar, ih2, if_neg hc]

theorem mk_toList (s : String) : String.mk s.toList = s := rfl

theorem mk_eq_empty_iff (l : List Char) : (String.mk l = "") ↔ l = [] := by
  constructor
  · intro h
    have := congrArg String.toList h
    simpa using this
  · rintro rfl; rfl

theorem parse_slash (name : String)
    (h3 : ∀ c ∈ name.toList, c ≠ '/' ∧ c ≠ '%' ∧ c ≠ '~' ∧ c ≠ '#') :
    parse_json_pointer (String.mk ('/' :: name.toList)) = [name] := by
  unfold parse_json_pointer
  rw [if_neg]
  · have hlist : (String.mk ('/' :: name.toList)).toList = '/' :: name.toList := rfl
    rw [hlist]
    have huq : pyUnquote ('/' :: name.toList) = '/' :: name.toList := by
      apply pyUnquote_id
      intro c hc
      rcases List.mem_cons.mp hc with h | h
      · rw [h]; decide
      · exact (h3 c h).2.1
    rw [huq]
    show (splitOnChar '/' name.toList).map
        (fun t => String.mk (replace2 '~' '0' '~' (replace2 '~' '1' '/' t))) = [name]
    rw [splitOnChar_id '/' name.toList (fun c hc => (h3 c hc).1)]
    simp only [List.map]
    rw [replace2_id '~' '1' '/' name.toList (fun c hc => (h3 c hc).2.2.1)]
    rw [replace2_id '~' '0' '~' name.toList (fun c hc => (h3 c hc).2.2.1)]
    rw [mk_toList]
  · rintro (h | h)
    · rw [mk_eq_empty_iff] at h; cases h
    · have h4 : '/' :: name.toList = ['#'] := congrArg String.toList h
      injection h4 with h5 _
      exact absurd h5 (by decide)

/-- C1 (amended): a `$ref` whose fragment pointer does not resolve inside
the referenced document raises `InvalidSchemaError` — for any member name
that is not a registry keyword, not `$ref`, and free of the pointer's
special characters, `compile({"$ref": "#/name"})` raises
`InvalidSchemaError`; but a `$ref` naming an absolute URI absent from the
seeded `schema_by_uri` map raises the dict lookup `KeyError` instead, not
`InvalidSchemaError`. -/
theorem C1_amended (f : Nat) (name : String)
    (h1 : draft7_keyword_names.contains name = false)
    (h2 : name ≠ "$ref")
    (h3 : ∀ c ∈ name.toList, c ≠ '/' ∧ c ≠ '%' ∧ c ≠ '~' ∧ c ≠ '#') :
    compileTop (f + 2) (jobj [("$ref", .strV ("#/" ++ name))]) =
      .error .invalidSchema ∧
    errOf (compileTop 30 (jobj [("$ref", .strV "http://example.com/schema")])) =
      some (.keyError "http://example.com/schema") := by
  refine ⟨?_, rfl⟩
  have hbeq : ("$ref" == name) = false := by
    exact beq_eq_false_iff_ne.mpr (Ne.symm h2)
  -- the placeholder-inserted state of the spawned Validation
  have key : initStep (compileS (f + 1))
      { smap := [(draft7_meta_uri, draft7_meta_schema)],
        vmap := [("#/" ++ name, none)] }
      (.obj (.cons "$ref" (.strV ("#/" ++ name)) .nil)) false [name] =
      .error .invalidSchema := by
    show compileStep (compileS f)
      { smap := [(draft7_meta_uri, draft7_meta_schema)],
        vmap := [("#/" ++ name, none)] }
      (.obj (.cons "$ref" (.strV ("#/" ++ name)) .nil)) false
      (.obj (.cons "$ref" (.strV ("#/" ++ name)) .nil)) "" [name] =
      .error .invalidSchema
    unfold compileStep
    simp only [JObj.lookup, JObj.hasKey, h1, hbeq]
    simp [evaluate_tokens, JObj.lookup, hbeq]
  -- fold the trace: compileTop reduces to the match on the spawned init
  have step : ∀ res : CompRes,
      initStep (compileS (f + 1))
        { smap := [(draft7_meta_uri, draft7_meta_schema)],
          vmap := [("#/" ++ name, none)] }
        (.obj (.cons "$ref" (.strV ("#/" ++ name)) .nil)) false
        (parse_json_pointer (String.mk ('/' :: name.toList))) = res →
      compileTop (f + 2) (jobj [("$ref", .strV ("#/" ++ name))]) =
        (match res with
         | .error e => .error e
         | .ok (body, st2) =>
           .ok (.refV ("#/" ++ name),
             { st2 with vmap := aset st2.vmap ("#/" ++ name) (some body) })) := by
    rintro res rfl
    rfl
  have key2 := step (.error .invalidSchema)
    (by rw [parse_slash name h3]; exact key)
  exact key2

/-- C1 (amended, witness): the claim's own example `{"$ref": "#/no_such"}`. -/
theorem C1_amended_witness :
    compileTop 2 (jobj [("$ref", .strV ("#/" ++ "no_such"))]) =
      .error .invalidSchema :=
  (C1_amended 0 "no_such" (by decide) (by decide) (by decide)).1

/-! ## Determinism of compilation for `$ref`-free schemas (towards C5)

Compilation of a schema in which the key `$ref` never occurs touches
neither the global maps nor the root schema, the base URI, or the
check-schema flag: the compiled evaluator is determined by the schema
alone.  This is what lets a sub-compilation of `S` inside `{"not": S}` be
compared with a standalone `compile(S)`. -/

mutual

/-- No member named `$ref` occurs anywhere in the value. -/
def RefFree : JSON → Bool
  | .obj kvs => RefFreeObj kvs
  | .arr l => RefFreeList l
  | _ => true

/-- `RefFree` on every element. -/
def RefFreeList : JList → Bool
  | .nil => true
  | .cons h t => RefFree h && RefFreeList t

/-- No key is `$ref`, and `RefFree` holds of every value. -/
def RefFreeObj : JObj → Bool
  | .nil => true
  | .cons k v t => (k != "$ref") && RefFree v && RefFreeObj t

end

/-- A ref-free object has no `$ref` member. -/
theorem rfObj_hasKey : ∀ (kvs : JObj), RefFreeObj kvs = true →
    kvs.hasKey "$ref" = false
  | .nil, _ => rfl
  | .cons k v t, h => by
    simp only [RefFreeObj, Bool.and_eq_true, bne_iff_ne] at h
    simp only [JObj.hasKey, JObj.lookup]
    rw [if_neg (by simp; exact fun hh => h.1.1 hh)]
    exact rfObj_hasKey t h.2

/-- Values of a ref-free object are ref-free. -/
theorem rfObj_lookup : ∀ (kvs : JObj) (key : String) (v : JSON),
    RefFreeObj kvs = true → kvs.lookup key = some v → RefFree v = true
  | .nil, _, _, _, hl => by cases hl
  | .cons k w t, key, v, h, hl => by
    simp only [RefFreeObj, Bool.and_eq_true] at h
    simp only [JObj.lookup] at hl
    by_cases hk : (k == key) = true
    · rw [if_pos hk] at hl
      cases hl
      exact h.1.2
    · rw [if_neg hk] at hl
      exact rfObj_lookup t key v h.2 hl

/-- Elements of a ref-free array are ref-free. -/
theorem rfList_get : ∀ (l : JList) (n : Nat) (v : JSON),
    RefFreeList l = true → l.get? n = some v → RefFree v = true
  | .nil, _, _, _, hg => by cases hg
  | .cons x t, 0, v, h, hg => by
    simp only [RefFreeList, Bool.and_eq_true] at h
    cases hg
    exact h.1
  | .cons x t, n + 1, v, h, hg => by
    simp only [RefFreeList, Bool.and_eq_true] at h
    exact rfList_get t n v h.2 hg

/-- Two sub-compilation functions agree (and leave the state untouched) on
every ref-free subschema with an empty residual pointer. -/
def SubDet (sub1 sub2 : SubFn) : Prop :=
  ∀ S, RefFree S = true →
    ∀ st1 st2 u1 u2 E1 E2 st1' st2',
      sub1 st1 S u1 [] = .ok (E1, st1') →
      sub2 st2 S u2 [] = .ok (E2, st2') →
      E1 = E2 ∧ st1' = st1 ∧ st2' = st2

/-- `compileEach` is deterministic and mutation-free on ref-free lists. -/
theorem each_det {sub1 sub2 : SubFn} (hd : SubDet sub1 sub2) :
    ∀ (l : JList), RefFreeList l = true →
    ∀ u1 u2 st1 st2 es1 es2 st1' st2',
      compileEach sub1 u1 st1 l = .ok (es1, st1') →
      compileEach sub2 u2 st2 l = .ok (es2, st2') →
      es1 = es2 ∧ st1' = st1 ∧ st2' = st2
  | .nil, _, u1, u2, st1, st2, es1, es2, st1', st2', h1, h2 => by
    cases h1; cases h2; exact ⟨rfl, rfl, rfl⟩
  | .cons x t, hrf, u1, u2, st1, st2, es1, es2, st1', st2', h1, h2 => by
    simp only [RefFreeList, Bool.and_eq_true] at hrf
    unfold compileEach at h1 h2
    cases hs1 : sub1 st1 x u1 [] with
    | error e => rw [hs1] at h1; exact Except.noConfusion h1
    | ok p1 =>
      cases hs2 : sub2 st2 x u2 [] with
      | error e => rw [hs2] at h2; exact Except.noConfusion h2
      | ok p2 =>
        obtain ⟨e1, sta1⟩ := p1
        obtain ⟨e2, sta2⟩ := p2
        obtain ⟨hee, hst1, hst2⟩ := hd x hrf.1 st1 st2 u1 u2 e1 e2 sta1 sta2 hs1 hs2
        rw [hs1] at h1; rw [hs2] at h2
        have h1' : (match compileEach sub1 u1 sta1 t with
            | .error e => (.error e : Except CErr (List Ev × CState))
            | .ok (es, stb) => .ok (e1 :: es, stb)) = .ok (es1, st1') := h1
        have h2' : (match compileEach sub2 u2 sta2 t with
            | .error e => (.error e : Except CErr (List Ev × CState))
            | .ok (es, stb) => .ok (e2 :: es, stb)) = .ok (es2, st2') := h2
        cases ht1 : compileEach sub1 u1 sta1 t with
        | error e => rw [ht1] at h1'; exact Except.noConfusion h1'
        | ok q1 =>
          cases ht2 : compileEach sub2 u2 sta2 t with
          | error e => rw [ht2] at h2'; exact Except.noConfusion h2'
          | ok q2 =>
            obtain ⟨es1t, stb1⟩ := q1
            obtain ⟨es2t, stb2⟩ := q2
            obtain ⟨hes, hsb1, hsb2⟩ :=
              each_det hd t hrf.2 u1 u2 sta1 sta2 es1t es2t stb1 stb2 ht1 ht2
            rw [ht1] at h1'; rw [ht2] at h2'
            cases h1'; cases h2'
            exact ⟨by rw [hee, hes], by rw [hsb1, hst1], by rw [hsb2, hst2]⟩

/-- `compilePairs` is deterministic and mutation-free on ref-free objects. -/
theorem pairs_det {sub1 sub2 : SubFn} (hd : SubDet sub1 sub2) :
    ∀ (o : JObj), RefFreeObj o = true →
    ∀ u1 u2 st1 st2 ps1 ps2 st1' st2',
      compilePairs sub1 u1 st1 o = .ok (ps1, st1') →
      compilePairs sub2 u2 st2 o = .ok (ps2, st2') →
      ps1 = ps2 ∧ st1' = st1 ∧ st2' = st2
  | .nil, _, u1, u2, st1, st2, ps1, ps2, st1', st2', h1, h2 => by
    cases h1; cases h2; exact ⟨rfl, rfl, rfl⟩
  | .cons k v t, hrf, u1, u2, st1, st2, ps1, ps2, st1', st2', h1, h2 => by
    simp only [RefFreeObj, Bool.and_eq_true] at hrf
    unfold compilePairs at h1 h2
    cases hs1 : sub1 st1 v u1 [] with
    | error e => rw [hs1] at h1; exact Except.noConfusion h1
    | ok p1 =>
      cases hs2 : sub2 st2 v u2 [] with
      | error e => rw [hs2] at h2; exact Except.noConfusion h2
      | ok p2 =>
        obtain ⟨e1, sta1⟩ := p1
        obtain ⟨e2, sta2⟩ := p2
        obtain ⟨hee, hst1, hst2⟩ :=
          hd v hrf.1.2 st1 st2 u1 u2 e1 e2 sta1 sta2 hs1 hs2
        rw [hs1] at h1; rw [hs2] at h2
        have h1' : (match compilePairs sub1 u1 sta1 t with
            | .error e => (.error e : Except CErr (List (String × Ev) × CState))
            | .ok (es, stb) => .ok ((k, e1) :: es, stb)) = .ok (ps1, st1') := h1
        have h2' : (match compilePairs sub2 u2 sta2 t with
            | .error e => (.error e : Except CErr (List (String × Ev) × CState))
            | .ok (es, stb) => .ok ((k, e2) :: es, stb)) = .ok (ps2, st2') := h2
        cases ht1 : compilePairs sub1 u1 sta1 t with
        | error e => rw [ht1] at h1'; exact Except.noConfusion h1'
        | ok q1 =>
          cases ht2 : compilePairs sub2 u2 sta2 t with
          | error e => rw [ht2] at h2'; exact Except.noConfusion h2'
          | ok q2 =>
            obtain ⟨es1t, stb1⟩ := q1
            obtain ⟨es2t, stb2⟩ := q2
            obtain ⟨hes, hsb1, hsb2⟩ :=
              pairs_det hd t hrf.2 u1 u2 sta1 sta2 es1t es2t stb1 stb2 ht1 ht2
            rw [ht1] at h1'; rw [ht2] at h2'
            cases h1'; cases h2'
            exact ⟨by rw [hee, hes], by rw [hsb1, hst1], by rw [hsb2, hst2]⟩

/-- `compileDepsGo` is deterministic and mutation-free on ref-free
objects, given equal accumulators. -/
theorem deps_det {sub1 sub2 : SubFn} (hd : SubDet sub1 sub2) :
    ∀ (o : JObj), RefFreeObj o = true →
    ∀ u1 u2 st1 st2 lp lc r1 r2 st1' st2',
      compileDepsGo sub1 u1 st1 o lp lc = .ok (r1, st1') →
      compileDepsGo sub2 u2 st2 o lp lc = .ok (r2, st2') →
      r1 = r2 ∧ st1' = st1 ∧ st2' = st2
  | .nil, _, u1, u2, st1, st2, lp, lc, r1, r2, st1', st2', h1, h2 => by
    cases h1; cases h2; exact ⟨rfl, rfl, rfl⟩
  | .cons k v t, hrf, u1, u2, st1, st2, lp, lc, r1, r2, st1', st2', h1, h2 => by
    simp only [RefFreeObj, Bool.and_eq_true] at hrf
    unfold compileDepsGo at h1 h2
    match v, hrf with
    | .arr l, hrf => ?_
    | .obj o2, hrf => ?_
    | .boolV b, hrf => ?_
    | .null, hrf => exact Except.noConfusion h1
    | .intV n, hrf => exact Except.noConfusion h1
    | .floatV q, hrf => exact Except.noConfusion h1
    | .strV sx, hrf => exact Except.noConfusion h1
    -- array form: no sub-compilation, recurse with the updated last pair
    · have h1 : (if stringList l = true then
          match compileDepsGo sub1 u1 st1 t (some (k, .arr l)) lc with
          | .error e => (.error e :
              Except CErr ((List DepForm × Option (String × JSON) × Option Ev) × CState))
          | .ok ((fs, lp, lc), st') => .ok ((.listF :: fs, lp, lc), st')
        else .error .assertError) = .ok (r1, st1') := h1
      have h2 : (if stringList l = true then
          match compileDepsGo sub2 u2 st2 t (some (k, .arr l)) lc with
          | .error e => (.error e :
              Except CErr ((List DepForm × Option (String × JSON) × Option Ev) × CState))
          | .ok ((fs, lp, lc), st') => .ok ((.listF :: fs, lp, lc), st')
        else .error .assertError) = .ok (r2, st2') := h2
      by_cases hsl : stringList l = true
      · rw [if_pos hsl] at h1 h2
        cases ht1 : compileDepsGo sub1 u1 st1 t (some (k, .arr l)) lc with
        | error e => rw [ht1] at h1; exact Except.noConfusion h1
        | ok q1 =>
          cases ht2 : compileDepsGo sub2 u2 st2 t (some (k, .arr l)) lc with
          | error e => rw [ht2] at h2; exact Except.noConfusion h2
          | ok q2 =>
            obtain ⟨⟨fs1, lp1, lc1⟩, stb1⟩ := q1
            obtain ⟨⟨fs2, lp2, lc2⟩, stb2⟩ := q2
            obtain ⟨hq, hsb1, hsb2⟩ :=
              deps_det hd t hrf.2 u1 u2 st1 st2 (some (k, .arr l)) lc _ _ stb1 stb2 ht1 ht2
            rw [ht1] at h1; rw [ht2] at h2
            cases h1; cases h2
            injection hq with hq1 hq2
            injection hq2 with hlp hlc
            refine ⟨?_, hsb1, hsb2⟩
            rw [hq1, hlp, hlc]
      · rw [if_neg hsl] at h1
        exact Except.noConfusion h1
    -- schema form (object value)
    · have h1 : (match sub1 st1 (.obj o2) u1 [] with
          | .error e => (.error e :
              Except CErr ((List DepForm × Option (String × JSON) × Option Ev) × CState))
          | .ok (e, sta) =>
            match compileDepsGo sub1 u1 sta t (some (k, .obj o2)) (some e) with
            | .error e => .error e
            | .ok ((fs, lp, lc), st2) => .ok ((.schemaF :: fs, lp, lc), st2)) =
          .ok (r1, st1') := h1
      have h2 : (match sub2 st2 (.obj o2) u2 [] with
          | .error e => (.error e :
              Except CErr ((List DepForm × Option (String × JSON) × Option Ev) × CState))
          | .ok (e, sta) =>
            match compileDepsGo sub2 u2 sta t (some (k, .obj o2)) (some e) with
            | .error e => .error e
            | .ok ((fs, lp, lc), st2) => .ok ((.schemaF :: fs, lp, lc), st2)) =
          .ok (r2, st2') := h2
      cases hs1 : sub1 st1 (.obj o2) u1 [] with
      | error e => rw [hs1] at h1; exact Except.noConfusion h1
      | ok p1 =>
        cases hs2 : sub2 st2 (.obj o2) u2 [] with
        | error e => rw [hs2] at h2; exact Except.noConfusion h2
        | ok p2 =>
          obtain ⟨e1, sta1⟩ := p1
          obtain ⟨e2, sta2⟩ := p2
          obtain ⟨hee, hst1, hst2⟩ :=
            hd (.obj o2) hrf.1.2 st1 st2 u1 u2 e1 e2 sta1 sta2 hs1 hs2
          rw [hs1] at h1; rw [hs2] at h2
          have h1 : (match compileDepsGo sub1 u1 sta1 t (some (k, .obj o2)) (some e1) with
              | .error e => (.error e :
                  Except CErr ((List DepForm × Option (String × JSON) × Option Ev) × CState))
              | .ok ((fs, lp, lc), st2) =>
                .ok ((.schemaF :: fs, lp, lc), st2)) = .ok (r1, st1') := h1
          have h2 : (match compileDepsGo sub2 u2 sta2 t (some (k, .obj o2)) (some e2) with
              | .error e => (.error e :
                  Except CErr ((List DepForm × Option (String × JSON) × Option Ev) × CState))
              | .ok ((fs, lp, lc), st2) =>
                .ok ((.schemaF :: fs, lp, lc), st2)) = .ok (r2, st2') := h2
          rw [hee] at h1
          cases ht1 : compileDepsGo sub1 u1 sta1 t (some (k, .obj o2)) (some e2) with
          | error e => rw [ht1] at h1; exact Except.noConfusion h1
          | ok q1 =>
            cases ht2 : compileDepsGo sub2 u2 sta2 t (some (k, .obj o2)) (some e2) with
            | error e => rw [ht2] at h2; exact Except.noConfusion h2
            | ok q2 =>
              obtain ⟨⟨fs1, lp1, lc1⟩, stb1⟩ := q1
              obtain ⟨⟨fs2, lp2, lc2⟩, stb2⟩ := q2
              obtain ⟨hq, hsb1, hsb2⟩ :=
                deps_det hd t hrf.2 u1 u2 sta1 sta2 (some (k, .obj o2)) (some e2)
                  _ _ stb1 stb2 ht1 ht2
              rw [ht1] at h1
              rw [ht2] at h2
              cases h1; cases h2
              injection hq with hq1 hq2
              injection hq2 with hlp hlc
              exact ⟨by rw [hq1, hlp, hlc], by rw [hsb1, hst1], by rw [hsb2, hst2]⟩
    -- schema form (boolean value)
    · have h1 : (match sub1 st1 (.boolV b) u1 [] with
          | .error e => (.error e :
              Except CErr ((List DepForm × Option (String × JSON) × Option Ev) × CState))
          | .ok (e, sta) =>
            match compileDepsGo sub1 u1 sta t (some (k, .boolV b)) (some e) with
            | .error e => .error e
            | .ok ((fs, lp, lc), st2) => .ok ((.schemaF :: fs, lp, lc), st2)) =
          .ok (r1, st1') := h1
      have h2 : (match sub2 st2 (.boolV b) u2 [] with
          | .error e => (.error e :
              Except CErr ((List DepForm × Option (String × JSON) × Option Ev) × CState))
          | .ok (e, sta) =>
            match compileDepsGo sub2 u2 sta t (some (k, .boolV b)) (some e) with
            | .error e => .error e
            | .ok ((fs, lp, lc), st2) => .ok ((.schemaF :: fs, lp, lc), st2)) =
          .ok (r2, st2') := h2
      cases hs1 : sub1 st1 (.boolV b) u1 [] with
      | error e => rw [hs1] at h1; exact Except.noConfusion h1
      | ok p1 =>
        cases hs2 : sub2 st2 (.boolV b) u2 [] with
        | error e => rw [hs2] at h2; exact Except.noConfusion h2
        | ok p2 =>
          obtain ⟨e1, sta1⟩ := p1
          obtain ⟨e2, sta2⟩ := p2
          obtain ⟨hee, hst1, hst2⟩ :=
            hd (.boolV b) rfl st1 st2 u1 u2 e1 e2 sta1 sta2 hs1 hs2
          rw [hs1] at h1; rw [hs2] at h2
          have h1 : (match compileDepsGo sub1 u1 sta1 t (some (k, .boolV b)) (some e1) with
              | .error e => (.error e :
                  Except CErr ((List DepForm × Option (String × JSON) × Option Ev) × CState))
              | .ok ((fs, lp, lc), st2) =>
                .ok ((.schemaF :: fs, lp, lc), st2)) = .ok (r1, st1') := h1
          have h2 : (match compileDepsGo sub2 u2 sta2 t (some (k, .boolV b)) (some e2) with
              | .error e => (.error e :
                  Except CErr ((List DepForm × Option (String × JSON) × Option Ev) × CState))
              | .ok ((fs, lp, lc), st2) =>
                .ok ((.schemaF :: fs, lp, lc), st2)) = .ok (r2, st2') := h2
          rw [hee] at h1
          cases ht1 : compileDepsGo sub1 u1 sta1 t (some (k, .boolV b)) (some e2) with
          | error e => rw [ht1] at h1; exact Except.noConfusion h1
          | ok q1 =>
            cases ht2 : compileDepsGo sub2 u2 sta2 t (some (k, .boolV b)) (some e2) with
            | error e => rw [ht2] at h2; exact Except.noConfusion h2
            | ok q2 =>
              obtain ⟨⟨fs1, lp1, lc1⟩, stb1⟩ := q1
              obtain ⟨⟨fs2, lp2, lc2⟩, stb2⟩ := q2
              obtain ⟨hq, hsb1, hsb2⟩ :=
                deps_det hd t hrf.2 u1 u2 sta1 sta2 (some (k, .boolV b)) (some e2)
                  _ _ stb1 stb2 ht1 ht2
              rw [ht1] at h1
              rw [ht2] at h2
              cases h1; cases h2
              injection hq with hq1 hq2
              injection hq2 with hlp hlc
              exact ⟨by rw [hq1, hlp, hlc], by rw [hsb1, hst1], by rw [hsb2, hst2]⟩

/-- Determinism of a keyword body compiling one subschema and wrapping the
result in a node. -/
theorem subNode_det {sub1 sub2 : SubFn} (hd : SubDet sub1 sub2)
    (build : Ev → Ev) (v : JSON) (hrf : RefFree v = true)
    (u1 u2 : String) (st1 st2 : CState) (e1 e2 : Ev) (st1' st2' : CState)
    (h1 : (match sub1 st1 v u1 [] with
           | .error e => (.error e : CompRes)
           | .ok (e, st') => .ok (build e, st')) = .ok (e1, st1'))
    (h2 : (match sub2 st2 v u2 [] with
           | .error e => (.error e : CompRes)
           | .ok (e, st') => .ok (build e, st')) = .ok (e2, st2')) :
    e1 = e2 ∧ st1' = st1 ∧ st2' = st2 := by
  cases hs1 : sub1 st1 v u1 [] with
  | error e => rw [hs1] at h1; exact Except.noConfusion h1
  | ok p1 =>
    cases hs2 : sub2 st2 v u2 [] with
    | error e => rw [hs2] at h2; exact Except.noConfusion h2
    | ok p2 =>
      obtain ⟨a1, sta1⟩ := p1
      obtain ⟨a2, sta2⟩ := p2
      obtain ⟨hee, hst1, hst2⟩ := hd v hrf st1 st2 u1 u2 a1 a2 sta1 sta2 hs1 hs2
      rw [hs1] at h1; rw [hs2] at h2
      cases h1; cases h2
      exact ⟨by rw [hee], hst1, hst2⟩

/-- Determinism of a keyword body compiling a list of subschemas and
wrapping the results in a node. -/
theorem eachNode_det {sub1 sub2 : SubFn} (hd : SubDet sub1 sub2)
    (build : List Ev → Ev) (l : JList) (hrf : RefFreeList l = true)
    (u1 u2 : String) (st1 st2 : CState) (e1 e2 : Ev) (st1' st2' : CState)
    (h1 : (match compileEach sub1 u1 st1 l with
           | .error e => (.error e : CompRes)
           | .ok (es, st') => .ok (build es, st')) = .ok (e1, st1'))
    (h2 : (match compileEach sub2 u2 st2 l with
           | .error e => (.error e : CompRes)
           | .ok (es, st') => .ok (build es, st')) = .ok (e2, st2')) :
    e1 = e2 ∧ st1' = st1 ∧ st2' = st2 := by
  cases hs1 : compileEach sub1 u1 st1 l with
  | error e => rw [hs1] at h1; exact Except.noConfusion h1
  | ok p1 =>
    cases hs2 : compileEach sub2 u2 st2 l with
    | error e => rw [hs2] at h2; exact Except.noConfusion h2
    | ok p2 =>
      obtain ⟨es1, sta1⟩ := p1
      obtain ⟨es2, sta2⟩ := p2
      obtain ⟨hes, hst1, hst2⟩ :=
        each_det hd l hrf u1 u2 st1 st2 es1 es2 sta1 sta2 hs1 hs2
      rw [hs1] at h1; rw [hs2] at h2
      cases h1; cases h2
      exact ⟨by rw [hes], hst1, hst2⟩

/-- Determinism of a keyword body compiling an object of subschemas and
wrapping the results in a node. -/
theorem pairsNode_det {sub1 sub2 : SubFn} (hd : SubDet sub1 sub2)
    (build : List (String × Ev) → Ev) (o : JObj) (hrf : RefFreeObj o = true)
    (u1 u2 : String) (st1 st2 : CState) (e1 e2 : Ev) (st1' st2' : CState)
    (h1 : (match compilePairs sub1 u1 st1 o with
           | .error e => (.error e : CompRes)
           | .ok (ps, st') => .ok (build ps, st')) = .ok (e1, st1'))
    (h2 : (match compilePairs sub2 u2 st2 o with
           | .error e => (.error e : CompRes)
           | .ok (ps, st') => .ok (build ps, st')) = .ok (e2, st2')) :
    e1 = e2 ∧ st1' = st1 ∧ st2' = st2 := by
  cases hs1 : compilePairs sub1 u1 st1 o with
  | error e => rw [hs1] at h1; exact Except.noConfusion h1
  | ok p1 =>
    cases hs2 : compilePairs sub2 u2 st2 o with
    | error e => rw [hs2] at h2; exact Except.noConfusion h2
    | ok p2 =>
      obtain ⟨ps1, sta1⟩ := p1
      obtain ⟨ps2, sta2⟩ := p2
      obtain ⟨hps, hst1, hst2⟩ :=
        pairs_det hd o hrf u1 u2 st1 st2 ps1 ps2 sta1 sta2 hs1 hs2
      rw [hs1] at h1; rw [hs2] at h2
      cases h1; cases h2
      exact ⟨by rw [hps], hst1, hst2⟩

/-- Two runs of a keyword producing the same node leave their states
untouched and agree. -/
theorem okNode_det {node : Ev} {st1 st2 st1' st2' : CState} {e1 e2 : Ev}
    (h1 : (Except.ok (node, st1) : CompRes) = .ok (e1, st1'))
    (h2 : (Except.ok (node, st2) : CompRes) = .ok (e2, st2')) :
    e1 = e2 ∧ st1' = st1 ∧ st2' = st2 := by
  cases h1; cases h2; exact ⟨rfl, rfl, rfl⟩

/-- Determinism of the `dependencies` keyword body. -/
theorem depsNode_det {sub1 sub2 : SubFn} (hd : SubDet sub1 sub2)
    (o : JObj) (hrf : RefFreeObj o = true)
    (u1 u2 : String) (st1 st2 : CState) (e1 e2 : Ev) (st1' st2' : CState)
    (h1 : (match compileDepsGo sub1 u1 st1 o none none with
           | .error e => (.error e : CompRes)
           | .ok ((fs, lp, lc), st') => .ok (.depsKw fs lp lc, st')) = .ok (e1, st1'))
    (h2 : (match compileDepsGo sub2 u2 st2 o none none with
           | .error e => (.error e : CompRes)
           | .ok ((fs, lp, lc), st') => .ok (.depsKw fs lp lc, st')) = .ok (e2, st2')) :
    e1 = e2 ∧ st1' = st1 ∧ st2' = st2 := by
  cases hs1 : compileDepsGo sub1 u1 st1 o none none with
  | error e => rw [hs1] at h1; exact Except.noConfusion h1
  | ok p1 =>
    cases hs2 : compileDepsGo sub2 u2 st2 o none none with
    | error e => rw [hs2] at h2; exact Except.noConfusion h2
    | ok p2 =>
      obtain ⟨⟨fs1, lp1, lc1⟩, sta1⟩ := p1
      obtain ⟨⟨fs2, lp2, lc2⟩, sta2⟩ := p2
      obtain ⟨hq, hst1, hst2⟩ :=
        deps_det hd o hrf u1 u2 st1 st2 none none _ _ sta1 sta2 hs1 hs2
      rw [hs1] at h1; rw [hs2] at h2
      cases h1; cases h2
      injection hq with hq1 hq2
      injection hq2 with hlp hlc
      exact ⟨by rw [hq1, hlp, hlc], hst1, hst2⟩

/-- The keyword bodies of `keywords.py` are deterministic and
mutation-free on ref-free values (given deterministic sub-compilation). -/
theorem kwInner_det {sub1 sub2 : SubFn} (hd : SubDet sub1 sub2)
    (whole : JObj) (hW : RefFreeObj whole = true)
    (k : String) (v : JSON) (hv : RefFree v = true)
    (u1 u2 : String) (st1 st2 : CState) (e1 e2 : Ev) (st1' st2' : CState)
    (h1 : kwInner sub1 st1 whole u1 k v = .ok (e1, st1'))
    (h2 : kwInner sub2 st2 whole u2 k v = .ok (e2, st2')) :
    e1 = e2 ∧ st1' = st1 ∧ st2' = st2 := by
  have hthen : RefFree ((whole.lookup "then").getD (.boolV true)) = true := by
    cases hl : whole.lookup "then" with
    | none => rfl
    | some w => exact rfObj_lookup whole "then" w hW hl
  have helse : RefFree ((whole.lookup "else").getD (.boolV true)) = true := by
    cases hl : whole.lookup "else" with
    | none => rfl
    | some w => exact rfObj_lookup whole "else" w hW hl
  unfold kwInner at h1 h2
  by_cases hk0 : k = "definitions" ∨ k = "then" ∨ k = "else"
  · rw [if_pos hk0] at h1 h2
    exact okNode_det h1 h2
  · rw [if_neg hk0] at h1 h2
    by_cases hk1 : k = "type"
    · rw [if_pos hk1] at h1 h2
      match v, h1, h2 with
      | .strV s, h1, h2 => exact okNode_det h1 h2
      | .arr l, h1, h2 => exact okNode_det h1 h2
      | .null, h1, h2 => exact Except.noConfusion h1
      | .boolV b, h1, h2 => exact Except.noConfusion h1
      | .intV n, h1, h2 => exact Except.noConfusion h1
      | .floatV q, h1, h2 => exact Except.noConfusion h1
      | .obj o, h1, h2 => exact Except.noConfusion h1
    · rw [if_neg hk1] at h1 h2
      by_cases hk2 : k = "enum"
      · rw [if_pos hk2] at h1 h2
        match v, h1, h2 with
        | .arr l, h1, h2 =>
          have h1 : (if l.length ≥ 1 then (Except.ok (.enumKw l, st1) : CompRes)
              else .error .assertError) = .ok (e1, st1') := h1
          have h2 : (if l.length ≥ 1 then (Except.ok (.enumKw l, st2) : CompRes)
              else .error .assertError) = .ok (e2, st2') := h2
          by_cases hlen : l.length ≥ 1
          · rw [if_pos hlen] at h1 h2
            exact okNode_det h1 h2
          · rw [if_neg hlen] at h1
            exact Except.noConfusion h1
        | .null, h1, h2 => exact Except.noConfusion h1
        | .boolV b, h1, h2 => exact Except.noConfusion h1
        | .intV n, h1, h2 => exact Except.noConfusion h1
        | .floatV q, h1, h2 => exact Except.noConfusion h1
        | .strV s, h1, h2 => exact Except.noConfusion h1
        | .obj o, h1, h2 => exact Except.noConfusion h1
      · rw [if_neg hk2] at h1 h2
        by_cases hk3 : k = "const"
        · rw [if_pos hk3] at h1 h2
          exact okNode_det h1 h2
        · rw [if_neg hk3] at h1 h2
          by_cases hk4 : k = "multipleOf"
          · rw [if_pos hk4] at h1 h2
            exact okNode_det h1 h2
          · rw [if_neg hk4] at h1 h2
            by_cases hk5 : k = "maximum"
            · rw [if_pos hk5] at h1 h2
              exact okNode_det h1 h2
            · rw [if_neg hk5] at h1 h2
              by_cases hk6 : k = "exclusiveMaximum"
              · rw [if_pos hk6] at h1 h2
                exact okNode_det h1 h2
              · rw [if_neg hk6] at h1 h2
                by_cases hk7 : k = "minimum"
                · rw [if_pos hk7] at h1 h2
                  exact okNode_det h1 h2
                · rw [if_neg hk7] at h1 h2
                  by_cases hk8 : k = "exclusiveMinimum"
                  · rw [if_pos hk8] at h1 h2
                    exact okNode_det h1 h2
                  · rw [if_neg hk8] at h1 h2
                    by_cases hk9 : k = "maxLength"
                    · rw [if_pos hk9] at h1 h2
                      exact okNode_det h1 h2
                    · rw [if_neg hk9] at h1 h2
                      by_cases hk10 : k = "minLength"
                      · rw [if_pos hk10] at h1 h2
                        exact okNode_det h1 h2
                      · rw [if_neg hk10] at h1 h2
                        by_cases hk11 : k = "pattern"
                        · rw [if_pos hk11] at h1 h2
                          exact okNode_det h1 h2
                        · rw [if_neg hk11] at h1 h2
                          by_cases hk12 : k = "items"
                          · rw [if_pos hk12] at h1 h2
                            match v, hv, h1, h2 with
                            | .arr l, hv, h1, h2 =>
                              exact eachNode_det hd Ev.itemsListKw l hv u1 u2 st1 st2 e1 e2 st1' st2' h1 h2
                            | .null, hv, h1, h2 =>
                              exact subNode_det hd Ev.itemsKw .null hv u1 u2 st1 st2 e1 e2 st1' st2' h1 h2
                            | .boolV b, hv, h1, h2 =>
                              exact subNode_det hd Ev.itemsKw (.boolV b) hv u1 u2 st1 st2 e1 e2 st1' st2' h1 h2
                            | .intV n, hv, h1, h2 =>
                              exact subNode_det hd Ev.itemsKw (.intV n) hv u1 u2 st1 st2 e1 e2 st1' st2' h1 h2
                            | .floatV q, hv, h1, h2 =>
                              exact subNode_det hd Ev.itemsKw (.floatV q) hv u1 u2 st1 st2 e1 e2 st1' st2' h1 h2
                            | .strV s, hv, h1, h2 =>
                              exact subNode_det hd Ev.itemsKw (.strV s) hv u1 u2 st1 st2 e1 e2 st1' st2' h1 h2
                            | .obj o, hv, h1, h2 =>
                              exact subNode_det hd Ev.itemsKw (.obj o) hv u1 u2 st1 st2 e1 e2 st1' st2' h1 h2
                          · rw [if_neg hk12] at h1 h2
                            by_cases hk13 : k = "additionalItems"
                            · rw [if_pos hk13] at h1 h2
                              exact subNode_det hd (fun e => Ev.addItemsKw e whole) v hv u1 u2 st1 st2 e1 e2 st1' st2' h1 h2
                            · rw [if_neg hk13] at h1 h2
                              by_cases hk14 : k = "maxItems"
                              · rw [if_pos hk14] at h1 h2
                                exact okNode_det h1 h2
                              · rw [if_neg hk14] at h1 h2
                                by_cases hk15 : k = "minItems"
                                · rw [if_pos hk15] at h1 h2
                                  exact okNode_det h1 h2
                                · rw [if_neg hk15] at h1 h2
                                  by_cases hk16 : k = "uniqueItems"
                                  · rw [if_pos hk16] at h1 h2
                                    exact okNode_det h1 h2
                                  · rw [if_neg hk16] at h1 h2
                                    by_cases hk17 : k = "contains"
                                    · rw [if_pos hk17] at h1 h2
                                      exact subNode_det hd Ev.containsKw v hv u1 u2 st1 st2 e1 e2 st1' st2' h1 h2
                                    · rw [if_neg hk17] at h1 h2
                                      by_cases hk18 : k = "maxProperties"
                                      · rw [if_pos hk18] at h1 h2
                                        exact okNode_det h1 h2
                                      · rw [if_neg hk18] at h1 h2
                                        by_cases hk19 : k = "minProperties"
                                        · rw [if_pos hk19] at h1 h2
                                          exact okNode_det h1 h2
                                        · rw [if_neg hk19] at h1 h2
                                          by_cases hk20 : k = "required"
                                          · rw [if_pos hk20] at h1 h2
                                            exact okNode_det h1 h2
                                          · rw [if_neg hk20] at h1 h2
                                            by_cases hk21 : k = "properties"
                                            · rw [if_pos hk21] at h1 h2
                                              match v, hv, h1, h2 with
                                              | .obj o, hv, h1, h2 =>
                                                exact pairsNode_det hd Ev.propsKw o hv u1 u2 st1 st2 e1 e2 st1' st2' h1 h2
                                              | .null, hv, h1, h2 => exact Except.noConfusion h1
                                              | .boolV b, hv, h1, h2 => exact Except.noConfusion h1
                                              | .intV n, hv, h1, h2 => exact Except.noConfusion h1
                                              | .floatV q, hv, h1, h2 => exact Except.noConfusion h1
                                              | .strV s, hv, h1, h2 => exact Except.noConfusion h1
                                              | .arr l, hv, h1, h2 => exact Except.noConfusion h1
                                            · rw [if_neg hk21] at h1 h2
                                              by_cases hk22 : k = "patternProperties"
                                              · rw [if_pos hk22] at h1 h2
                                                match v, hv, h1, h2 with
                                                | .obj o, hv, h1, h2 =>
                                                  exact pairsNode_det hd Ev.patPropsKw o hv u1 u2 st1 st2 e1 e2 st1' st2' h1 h2
                                                | .null, hv, h1, h2 => exact Except.noConfusion h1
                                                | .boolV b, hv, h1, h2 => exact Except.noConfusion h1
                                                | .intV n, hv, h1, h2 => exact Except.noConfusion h1
                                                | .floatV q, hv, h1, h2 => exact Except.noConfusion h1
                                                | .strV s, hv, h1, h2 => exact Except.noConfusion h1
                                                | .arr l, hv, h1, h2 => exact Except.noConfusion h1
                                              · rw [if_neg hk22] at h1 h2
                                                by_cases hk23 : k = "additionalProperties"
                                                · rw [if_pos hk23] at h1 h2
                                                  exact subNode_det hd (fun e => Ev.addPropsKw e whole) v hv u1 u2 st1 st2 e1 e2 st1' st2' h1 h2
                                                · rw [if_neg hk23] at h1 h2
                                                  by_cases hk24 : k = "dependencies"
                                                  · rw [if_pos hk24] at h1 h2
                                                    match v, hv, h1, h2 with
                                                    | .obj o, hv, h1, h2 =>
                                                      exact depsNode_det hd o hv u1 u2 st1 st2 e1 e2 st1' st2' h1 h2
                                                    | .null, hv, h1, h2 => exact Except.noConfusion h1
                                                    | .boolV b, hv, h1, h2 => exact Except.noConfusion h1
                                                    | .intV n, hv, h1, h2 => exact Except.noConfusion h1
                                                    | .floatV q, hv, h1, h2 => exact Except.noConfusion h1
                                                    | .strV s, hv, h1, h2 => exact Except.noConfusion h1
                                                    | .arr l, hv, h1, h2 => exact Except.noConfusion h1
                                                  · rw [if_neg hk24] at h1 h2
                                                    by_cases hk25 : k = "propertyNames"
                                                    · rw [if_pos hk25] at h1 h2
                                                      exact subNode_det hd Ev.propNamesKw v hv u1 u2 st1 st2 e1 e2 st1' st2' h1 h2
                                                    · rw [if_neg hk25] at h1 h2
                                                      by_cases hk26 : k = "if"
                                                      · rw [if_pos hk26] at h1 h2
                                                        cases hs1 : sub1 st1 v u1 [] with
                                                        | error e => rw [hs1] at h1; exact Except.noConfusion h1
                                                        | ok p1 =>
                                                          cases hs2 : sub2 st2 v u2 [] with
                                                          | error e => rw [hs2] at h2; exact Except.noConfusion h2
                                                          | ok p2 =>
                                                            obtain ⟨c1, sta1⟩ := p1
                                                            obtain ⟨c2, sta2⟩ := p2
                                                            obtain ⟨hc, hsa1, hsa2⟩ := hd v hv st1 st2 u1 u2 c1 c2 sta1 sta2 hs1 hs2
                                                            rw [hs1] at h1; rw [hs2] at h2
                                                            have h1 : (match sub1 sta1 ((whole.lookup "then").getD (.boolV true)) u1 [] with
                                                                | .error e => (.error e : CompRes)
                                                                | .ok (t, st2) =>
                                                                  match sub1 st2 ((whole.lookup "else").getD (.boolV true)) u1 [] with
                                                                  | .error e => .error e
                                                                  | .ok (e, st3) => .ok (.ifKw c1 t e, st3)) = .ok (e1, st1') := h1
                                                            have h2 : (match sub2 sta2 ((whole.lookup "then").getD (.boolV true)) u2 [] with
                                                                | .error e => (.error e : CompRes)
                                                                | .ok (t, st2) =>
                                                                  match sub2 st2 ((whole.lookup "else").getD (.boolV true)) u2 [] with
                                                                  | .error e => .error e
                                                                  | .ok (e, st3) => .ok (.ifKw c2 t e, st3)) = .ok (e2, st2') := h2
                                                            cases ht1 : sub1 sta1 ((whole.lookup "then").getD (.boolV true)) u1 [] with
                                                            | error e => rw [ht1] at h1; exact Except.noConfusion h1
                                                            | ok q1 =>
                                                              cases ht2 : sub2 sta2 ((whole.lookup "then").getD (.boolV true)) u2 [] with
                                                              | error e => rw [ht2] at h2; exact Except.noConfusion h2
                                                              | ok q2 =>
                                                                obtain ⟨t1, stb1⟩ := q1
                                                                obtain ⟨t2, stb2⟩ := q2
                                                                obtain ⟨hT, hsb1, hsb2⟩ :=
                                                                  hd _ hthen sta1 sta2 u1 u2 t1 t2 stb1 stb2 ht1 ht2
                                                                rw [ht1] at h1; rw [ht2] at h2
                                                                have h1 : (match sub1 stb1 ((whole.lookup "else").getD (.boolV true)) u1 [] with
                                                                    | .error e => (.error e : CompRes)
                                                                    | .ok (e, st3) => .ok (.ifKw c1 t1 e, st3)) = .ok (e1, st1') := h1
                                                                have h2 : (match sub2 stb2 ((whole.lookup "else").getD (.boolV true)) u2 [] with
                                                                    | .error e => (.error e : CompRes)
                                                                    | .ok (e, st3) => .ok (.ifKw c2 t2 e, st3)) = .ok (e2, st2') := h2
                                                                cases he1 : sub1 stb1 ((whole.lookup "else").getD (.boolV true)) u1 [] with
                                                                | error e => rw [he1] at h1; exact Except.noConfusion h1
                                                                | ok r1 =>
                                                                  cases he2 : sub2 stb2 ((whole.lookup "else").getD (.boolV true)) u2 [] with
                                                                  | error e => rw [he2] at h2; exact Except.noConfusion h2
                                                                  | ok r2 =>
                                                                    obtain ⟨x1, stc1⟩ := r1
                                                                    obtain ⟨x2, stc2⟩ := r2
                                                                    obtain ⟨hX, hsc1, hsc2⟩ :=
                                                                      hd _ helse stb1 stb2 u1 u2 x1 x2 stc1 stc2 he1 he2
                                                                    rw [he1] at h1; rw [he2] at h2
                                                                    cases h1; cases h2
                                                                    exact ⟨by rw [hc, hT, hX],
                                                                      by rw [hsc1, hsb1, hsa1], by rw [hsc2, hsb2, hsa2]⟩
                                                      · rw [if_neg hk26] at h1 h2
                                                        by_cases hk27 : k = "allOf"
                                                        · rw [if_pos hk27] at h1 h2
                                                          match v, hv, h1, h2 with
                                                          | .arr l, hv, h1, h2 =>
                                                            exact eachNode_det hd Ev.conj l hv u1 u2 st1 st2 e1 e2 st1' st2' h1 h2
                                                          | .null, hv, h1, h2 => exact Except.noConfusion h1
                                                          | .boolV b, hv, h1, h2 => exact Except.noConfusion h1
                                                          | .intV n, hv, h1, h2 => exact Except.noConfusion h1
                                                          | .floatV q, hv, h1, h2 => exact Except.noConfusion h1
                                                          | .strV s, hv, h1, h2 => exact Except.noConfusion h1
                                                          | .obj o, hv, h1, h2 => exact Except.noConfusion h1
                                                        · rw [if_neg hk27] at h1 h2
                                                          by_cases hk28 : k = "anyOf"
                                                          · rw [if_pos hk28] at h1 h2
                                                            match v, hv, h1, h2 with
                                                            | .arr l, hv, h1, h2 =>
                                                              exact eachNode_det hd Ev.anyOfKw l hv u1 u2 st1 st2 e1 e2 st1' st2' h1 h2
                                                            | .null, hv, h1, h2 => exact Except.noConfusion h1
                                                            | .boolV b, hv, h1, h2 => exact Except.noConfusion h1
                                                            | .intV n, hv, h1, h2 => exact Except.noConfusion h1
                                                            | .floatV q, hv, h1, h2 => exact Except.noConfusion h1
                                                            | .strV s, hv, h1, h2 => exact Except.noConfusion h1
                                                            | .obj o, hv, h1, h2 => exact Except.noConfusion h1
                                                          · rw [if_neg hk28] at h1 h2
                                                            by_cases hk29 : k = "oneOf"
                                                            · rw [if_pos hk29] at h1 h2
                                                              match v, hv, h1, h2 with
                                                              | .arr l, hv, h1, h2 =>
                                                                exact eachNode_det hd Ev.oneOfKw l hv u1 u2 st1 st2 e1 e2 st1' st2' h1 h2
                                                              | .null, hv, h1, h2 => exact Except.noConfusion h1
                                                              | .boolV b, hv, h1, h2 => exact Except.noConfusion h1
                                                              | .intV n, hv, h1, h2 => exact Except.noConfusion h1
                                                              | .floatV q, hv, h1, h2 => exact Except.noConfusion h1
                                                              | .strV s, hv, h1, h2 => exact Except.noConfusion h1
                                                              | .obj o, hv, h1, h2 => exact Except.noConfusion h1
                                                            · rw [if_neg hk29] at h1 h2
                                                              by_cases hk30 : k = "not"
                                                              · rw [if_pos hk30] at h1 h2
                                                                match v, hv, h1, h2 with
                                                                | .boolV b, hv, h1, h2 =>
                                                                  exact subNode_det hd Ev.notKw (.boolV b) hv u1 u2 st1 st2 e1 e2 st1' st2' h1 h2
                                                                | .obj o, hv, h1, h2 =>
                                                                  exact subNode_det hd Ev.notKw (.obj o) hv u1 u2 st1 st2 e1 e2 st1' st2' h1 h2
                                                                | .null, hv, h1, h2 => exact Except.noConfusion h1
                                                                | .intV n, hv, h1, h2 => exact Except.noConfusion h1
                                                                | .floatV q, hv, h1, h2 => exact Except.noConfusion h1
                                                                | .strV s, hv, h1, h2 => exact Except.noConfusion h1
                                                                | .arr l, hv, h1, h2 => exact Except.noConfusion h1
                                                              · rw [if_neg hk30] at h1 h2
                                                                exact Except.noConfusion h1

/-- `compileKw` with an empty residual pointer is deterministic and
mutation-free on ref-free values. -/
theorem compileKw_det {sub1 sub2 : SubFn} (hd : SubDet sub1 sub2)
    (whole : JObj) (hW : RefFreeObj whole = true)
    (c1 c2 : Bool) (k : String) (v : JSON) (hv : RefFree v = true)
    (u1 u2 : String) (st1 st2 : CState) (e1 e2 : Ev) (st1' st2' : CState)
    (h1 : compileKw sub1 c1 st1 whole u1 k v [] = .ok (e1, st1'))
    (h2 : compileKw sub2 c2 st2 whole u2 k v [] = .ok (e2, st2')) :
    e1 = e2 ∧ st1' = st1 ∧ st2' = st2 := by
  unfold compileKw at h1 h2
  by_cases href : whole.hasKey "$ref" = true
  · rw [if_pos ⟨href, rfl⟩] at h1 h2
    exact okNode_det h1 h2
  · rw [if_neg (fun hand => href hand.1)] at h1 h2
    cases hk1 : kwInner sub1 st1 whole u1 k v with
    | error e => rw [hk1] at h1; exact Except.noConfusion h1
    | ok p1 =>
      cases hk2 : kwInner sub2 st2 whole u2 k v with
      | error e => rw [hk2] at h2; exact Except.noConfusion h2
      | ok p2 =>
        obtain ⟨a1, sta1⟩ := p1
        obtain ⟨a2, sta2⟩ := p2
        obtain ⟨hee, hst1, hst2⟩ :=
          kwInner_det hd whole hW k v hv u1 u2 st1 st2 a1 a2 sta1 sta2 hk1 hk2
        rw [hk1] at h1; rw [hk2] at h2
        cases h1; cases h2
        exact ⟨by rw [hee], hst1, hst2⟩

/-- The keyword loop of `Validation.evaluate` is deterministic and
mutation-free on ref-free schema objects. -/
theorem kwFold_det {sub1 sub2 : SubFn} (hd : SubDet sub1 sub2)
    (whole : JObj) (hW : RefFreeObj whole = true) (c1 c2 : Bool) :
    ∀ (kvs : JObj), RefFreeObj kvs = true →
    ∀ u1 u2 st1 st2 es1 es2 st1' st2',
      compileKwFold sub1 c1 whole u1 st1 kvs = .ok (es1, st1') →
      compileKwFold sub2 c2 whole u2 st2 kvs = .ok (es2, st2') →
      es1 = es2 ∧ st1' = st1 ∧ st2' = st2
  | .nil, _, u1, u2, st1, st2, es1, es2, st1', st2', h1, h2 => by
    cases h1; cases h2; exact ⟨rfl, rfl, rfl⟩
  | .cons k v t, hrf, u1, u2, st1, st2, es1, es2, st1', st2', h1, h2 => by
    simp only [RefFreeObj, Bool.and_eq_true] at hrf
    unfold compileKwFold at h1 h2
    by_cases hc : draft7_keyword_names.contains k = true
    · rw [if_pos hc] at h1 h2
      cases hs1 : compileKw sub1 c1 st1 whole u1 k v [] with
      | error e => rw [hs1] at h1; exact Except.noConfusion h1
      | ok p1 =>
        cases hs2 : compileKw sub2 c2 st2 whole u2 k v [] with
        | error e => rw [hs2] at h2; exact Except.noConfusion h2
        | ok p2 =>
          obtain ⟨a1, sta1⟩ := p1
          obtain ⟨a2, sta2⟩ := p2
          obtain ⟨hee, hsa1, hsa2⟩ :=
            compileKw_det hd whole hW c1 c2 k v hrf.1.2 u1 u2 st1 st2
              a1 a2 sta1 sta2 hs1 hs2
          rw [hs1] at h1; rw [hs2] at h2
          have h1 : (match compileKwFold sub1 c1 whole u1 sta1 t with
              | .error e => (.error e : Except CErr (List Ev × CState))
              | .ok (es, st2) => .ok (a1 :: es, st2)) = .ok (es1, st1') := h1
          have h2 : (match compileKwFold sub2 c2 whole u2 sta2 t with
              | .error e => (.error e : Except CErr (List Ev × CState))
              | .ok (es, st2) => .ok (a2 :: es, st2)) = .ok (es2, st2') := h2
          cases ht1 : compileKwFold sub1 c1 whole u1 sta1 t with
          | error e => rw [ht1] at h1; exact Except.noConfusion h1
          | ok q1 =>
            cases ht2 : compileKwFold sub2 c2 whole u2 sta2 t with
            | error e => rw [ht2] at h2; exact Except.noConfusion h2
            | ok q2 =>
              obtain ⟨es1t, stb1⟩ := q1
              obtain ⟨es2t, stb2⟩ := q2
              obtain ⟨hes, hsb1, hsb2⟩ :=
                kwFold_det hd whole hW c1 c2 t hrf.2 u1 u2 sta1 sta2
                  es1t es2t stb1 stb2 ht1 ht2
              rw [ht1] at h1; rw [ht2] at h2
              cases h1; cases h2
              exact ⟨by rw [hee, hes], by rw [hsb1, hsa1], by rw [hsb2, hsa2]⟩
    · rw [if_neg hc] at h1 h2
      exact kwFold_det hd whole hW c1 c2 t hrf.2 u1 u2 st1 st2
        es1 es2 st1' st2' h1 h2



/-- `Validation.evaluate`'s keyword-fold branch (`.conj` of the compiled
keywords) is deterministic and mutation-free on ref-free schema objects,
regardless of the fuel, the base URI, `check_schema`, or the incoming
state. -/
theorem kwFoldConj_det {sub1 sub2 : SubFn} (hd : SubDet sub1 sub2)
    (kvs : JObj) (hW : RefFreeObj kvs = true) (c1 c2 : Bool)
    (u1 u2 : String) (st1 st2 : CState) (E1 E2 : Ev) (st1' st2' : CState)
    (h1 : (match compileKwFold sub1 c1 kvs u1 st1 kvs with
           | .error e => (.error e : CompRes)
           | .ok (es, st') => .ok (.conj es, st')) = .ok (E1, st1'))
    (h2 : (match compileKwFold sub2 c2 kvs u2 st2 kvs with
           | .error e => (.error e : CompRes)
           | .ok (es, st') => .ok (.conj es, st')) = .ok (E2, st2')) :
    E1 = E2 ∧ st1' = st1 ∧ st2' = st2 := by
  cases hs1 : compileKwFold sub1 c1 kvs u1 st1 kvs with
  | error e => rw [hs1] at h1; exact Except.noConfusion h1
  | ok p1 =>
    cases hs2 : compileKwFold sub2 c2 kvs u2 st2 kvs with
    | error e => rw [hs2] at h2; exact Except.noConfusion h2
    | ok p2 =>
      obtain ⟨es1, sta1⟩ := p1
      obtain ⟨es2, sta2⟩ := p2
      obtain ⟨hes, hst1, hst2⟩ :=
        kwFold_det hd kvs hW c1 c2 kvs hW u1 u2 st1 st2 es1 es2 sta1 sta2 hs1 hs2
      rw [hs1] at h1; rw [hs2] at h2
      cases h1; cases h2
      exact ⟨by rw [hes], hst1, hst2⟩

/-- One step of `Validation.evaluate` on a ref-free schema is deterministic
and mutation-free: two successful compilations (any roots, flags, base
URIs, states) build the same evaluator and leave their states untouched. -/
theorem compileStep_det (rec1 rec2 : RecFn) (r1 r2 : JSON) (c1 c2 : Bool)
    (hd : SubDet (fun st sch u rl => rec1 st r1 c1 sch u rl)
                 (fun st sch u rl => rec2 st r2 c2 sch u rl)) :
    ∀ (S : JSON), RefFree S = true →
    ∀ st1 st2 b1 b2 E1 E2 st1' st2',
      compileStep rec1 st1 r1 c1 S b1 [] = .ok (E1, st1') →
      compileStep rec2 st2 r2 c2 S b2 [] = .ok (E2, st2') →
      E1 = E2 ∧ st1' = st1 ∧ st2' = st2 := by
  intro S hrf st1 st2 b1 b2 E1 E2 st1' st2' h1 h2
  match S, hrf, h1, h2 with
  | .boolV b, _, h1, h2 => exact okNode_det h1 h2
  | .null, _, h1, h2 => exact Except.noConfusion h1
  | .intV n, _, h1, h2 => exact Except.noConfusion h1
  | .floatV q, _, h1, h2 => exact Except.noConfusion h1
  | .strV s, _, h1, h2 => exact Except.noConfusion h1
  | .arr l, _, h1, h2 => exact Except.noConfusion h1
  | .obj kvs, hrf, h1, h2 =>
    have hW : RefFreeObj kvs = true := hrf
    have href : kvs.hasKey "$ref" = false := rfObj_hasKey kvs hW
    unfold compileStep at h1 h2
    simp only [href, Bool.false_eq_true, false_and, if_false, not_false_eq_true,
      true_and, if_true] at h1 h2
    cases hid : kvs.lookup "$id" with
    | none =>
      rw [hid] at h1 h2
      exact kwFoldConj_det hd kvs hW c1 c2 b1 b2 st1 st2 E1 E2 st1' st2' h1 h2
    | some v =>
      rw [hid] at h1 h2
      match v, h1, h2 with
      | .strV sid, h1, h2 =>
        have h1 : (match (if (sid != "") = true then (Except.ok (urljoin b1 sid) : Except CErr String) else .ok b1) with
        | .error e => (.error e : CompRes)
        | .ok curUri =>
          match compileKwFold (fun st' sch uri rl => rec1 st' r1 c1 sch uri rl)
              c1 kvs curUri st1 kvs with
          | .error e => .error e
          | .ok (es, st') => .ok (.conj es, st')) = .ok (E1, st1') := h1
        have h2 : (match (if (sid != "") = true then (Except.ok (urljoin b2 sid) : Except CErr String) else .ok b2) with
        | .error e => (.error e : CompRes)
        | .ok curUri =>
          match compileKwFold (fun st' sch uri rl => rec2 st' r2 c2 sch uri rl)
              c2 kvs curUri st2 kvs with
          | .error e => .error e
          | .ok (es, st') => .ok (.conj es, st')) = .ok (E2, st2') := h2
        by_cases htr : (sid != "") = true
        · rw [if_pos htr] at h1 h2
          exact kwFoldConj_det hd kvs hW c1 c2 (urljoin b1 sid) (urljoin b2 sid)
            st1 st2 E1 E2 st1' st2' h1 h2
        · rw [if_neg htr] at h1 h2
          exact kwFoldConj_det hd kvs hW c1 c2 b1 b2 st1 st2 E1 E2 st1' st2' h1 h2
      | .null, h1, h2 =>
        exact kwFoldConj_det hd kvs hW c1 c2 b1 b2 st1 st2 E1 E2 st1' st2' h1 h2
      | .boolV bb, h1, h2 =>
        match bb, h1, h2 with
        | false, h1, h2 =>
          exact kwFoldConj_det hd kvs hW c1 c2 b1 b2 st1 st2 E1 E2 st1' st2' h1 h2
        | true, h1, h2 => exact Except.noConfusion h1
      | .intV n, h1, h2 =>
        have h1 : (match (if (n != 0) = true then (Except.error CErr.typeError : Except CErr String) else .ok b1) with
        | .error e => (.error e : CompRes)
        | .ok curUri =>
          match compileKwFold (fun st' sch uri rl => rec1 st' r1 c1 sch uri rl)
              c1 kvs curUri st1 kvs with
          | .error e => .error e
          | .ok (es, st') => .ok (.conj es, st')) = .ok (E1, st1') := h1
        have h2 : (match (if (n != 0) = true then (Except.error CErr.typeError : Except CErr String) else .ok b2) with
        | .error e => (.error e : CompRes)
        | .ok curUri =>
          match compileKwFold (fun st' sch uri rl => rec2 st' r2 c2 sch uri rl)
              c2 kvs curUri st2 kvs with
          | .error e => .error e
          | .ok (es, st') => .ok (.conj es, st')) = .ok (E2, st2') := h2
        by_cases hn : (n != 0) = true
        · rw [if_pos hn] at h1
          exact Except.noConfusion h1
        · rw [if_neg hn] at h1 h2
          exact kwFoldConj_det hd kvs hW c1 c2 b1 b2 st1 st2 E1 E2 st1' st2' h1 h2
      | .floatV q, h1, h2 =>
        have h1 : (match (if (q != 0) = true then (Except.error CErr.typeError : Except CErr String) else .ok b1) with
        | .error e => (.error e : CompRes)
        | .ok curUri =>
          match compileKwFold (fun st' sch uri rl => rec1 st' r1 c1 sch uri rl)
              c1 kvs curUri st1 kvs with
          | .error e => .error e
          | .ok (es, st') => .ok (.conj es, st')) = .ok (E1, st1') := h1
        have h2 : (match (if (q != 0) = true then (Except.error CErr.typeError : Except CErr String) else .ok b2) with
        | .error e => (.error e : CompRes)
        | .ok curUri =>
          match compileKwFold (fun st' sch uri rl => rec2 st' r2 c2 sch uri rl)
              c2 kvs curUri st2 kvs with
          | .error e => .error e
          | .ok (es, st') => .ok (.conj es, st')) = .ok (E2, st2') := h2
        by_cases hn : (q != 0) = true
        · rw [if_pos hn] at h1
          exact Except.noConfusion h1
        · rw [if_neg hn] at h1 h2
          exact kwFoldConj_det hd kvs hW c1 c2 b1 b2 st1 st2 E1 E2 st1' st2' h1 h2
      | .arr l, h1, h2 =>
        have h1 : (match (if (l.length != 0) = true then (Except.error CErr.typeError : Except CErr String) else .ok b1) with
        | .error e => (.error e : CompRes)
        | .ok curUri =>
          match compileKwFold (fun st' sch uri rl => rec1 st' r1 c1 sch uri rl)
              c1 kvs curUri st1 kvs with
          | .error e => .error e
          | .ok (es, st') => .ok (.conj es, st')) = .ok (E1, st1') := h1
        have h2 : (match (if (l.length != 0) = true then (Except.error CErr.typeError : Except CErr String) else .ok b2) with
        | .error e => (.error e : CompRes)
        | .ok curUri =>
          match compileKwFold (fun st' sch uri rl => rec2 st' r2 c2 sch uri rl)
              c2 kvs curUri st2 kvs with
          | .error e => .error e
          | .ok (es, st') => .ok (.conj es, st')) = .ok (E2, st2') := h2
        by_cases hn : (l.length != 0) = true
        · rw [if_pos hn] at h1
          exact Except.noConfusion h1
        · rw [if_neg hn] at h1 h2
          exact kwFoldConj_det hd kvs hW c1 c2 b1 b2 st1 st2 E1 E2 st1' st2' h1 h2
      | .obj o, h1, h2 =>
        have h1 : (match (if (o.length != 0) = true then (Except.error CErr.typeError : Except CErr String) else .ok b1) with
        | .error e => (.error e : CompRes)
        | .ok curUri =>
          match compileKwFold (fun st' sch uri rl => rec1 st' r1 c1 sch uri rl)
              c1 kvs curUri st1 kvs with
          | .error e => .error e
          | .ok (es, st') => .ok (.conj es, st')) = .ok (E1, st1') := h1
        have h2 : (match (if (o.length != 0) = true then (Except.error CErr.typeError : Except CErr String) else .ok b2) with
        | .error e => (.error e : CompRes)
        | .ok curUri =>
          match compileKwFold (fun st' sch uri rl => rec2 st' r2 c2 sch uri rl)
              c2 kvs curUri st2 kvs with
          | .error e => .error e
          | .ok (es, st') => .ok (.conj es, st')) = .ok (E2, st2') := h2
        by_cases hn : (o.length != 0) = true
        · rw [if_pos hn] at h1
          exact Except.noConfusion h1
        · rw [if_neg hn] at h1 h2
          exact kwFoldConj_det hd kvs hW c1 c2 b1 b2 st1 st2 E1 E2 st1' st2' h1 h2


/-- The compiler is deterministic and mutation-free on ref-free schemas:
two successful runs of `compileS` at any fuels, roots, flags, base URIs
and states produce the same evaluator and do not grow `validator_by_uri`. -/
theorem compileS_det : ∀ (f1 : Nat) {f2 : Nat} {S : JSON}
    {st1 st2 : CState} {r1 r2 : JSON} {c1 c2 : Bool} {b1 b2 : String}
    {E1 E2 : Ev} {st1' st2' : CState},
    RefFree S = true →
    compileS f1 st1 r1 c1 S b1 [] = .ok (E1, st1') →
    compileS f2 st2 r2 c2 S b2 [] = .ok (E2, st2') →
    E1 = E2 ∧ st1' = st1 ∧ st2' = st2 := by
  intro f1
  induction f1 with
  | zero =>
    intro f2 S st1 st2 r1 r2 c1 c2 b1 b2 E1 E2 st1' st2' hrf h1 h2
    exact Except.noConfusion h1
  | succ g ih =>
    intro f2 S st1 st2 r1 r2 c1 c2 b1 b2 E1 E2 st1' st2' hrf h1 h2
    cases f2 with
    | zero => exact Except.noConfusion h2
    | succ g2 =>
      have hd : SubDet (fun st sch u rl => compileS g st r1 c1 sch u rl)
                       (fun st sch u rl => compileS g2 st r2 c2 sch u rl) := by
        intro S2 hrf2 st1x st2x u1 u2 E1x E2x st1x' st2x' hA hB
        exact ih hrf2 hA hB
      exact compileStep_det (compileS g) (compileS g2) r1 r2 c1 c2 hd S hrf
        st1 st2 b1 b2 E1 E2 st1' st2' h1 h2

/-- Dissecting a successful `compile(schema)`: it is a `compileS` run of the
schema against itself as root, with `check_schema` on and an empty
validator memo. -/
theorem compileTop_extract (f : Nat) (S : JSON) (E : Ev) (st' : CState)
    (h : compileTop f S = .ok (E, st')) :
    ∃ stX uX, compileS f stX S true S uX [] = .ok (E, st') ∧ stX.vmap = [] := by
  unfold compileTop compileWith at h
  match S, h with
  | .null, h => exact Except.noConfusion h
  | .intV n, h => exact Except.noConfusion h
  | .floatV q, h => exact Except.noConfusion h
  | .strV s, h => exact Except.noConfusion h
  | .arr l, h => exact Except.noConfusion h
  | .boolV bb, h => exact ⟨_, _, h, rfl⟩
  | .obj kvs, h =>
    by_cases hm : metaOK (.obj kvs) = true
    · have h2 : initEvaluate (compileS f)
          { smap := [(draft7_meta_uri, draft7_meta_schema)], vmap := [] }
          (.obj kvs) true [] = .ok (E, st') := by
        unfold initStep at h
        rw [if_neg (fun hand => hand.2 hm)] at h
        exact h
      have h2 : (match kvs.lookup "$id" with
          | some (.strV rid) =>
            if (split_uri rid).1 = "" then
              compileS f { smap := [(draft7_meta_uri, draft7_meta_schema)], vmap := [] }
                (.obj kvs) true (.obj kvs) rid []
            else
              match alookup [(draft7_meta_uri, draft7_meta_schema)] (split_uri rid).1 with
              | some existing =>
                if pyEq existing (.obj kvs) = true then
                  compileS f
                    { smap := aset [(draft7_meta_uri, draft7_meta_schema)]
                        (split_uri rid).1 (.obj kvs), vmap := [] }
                    (.obj kvs) true (.obj kvs) rid []
                else .error .assertError
              | none =>
                compileS f
                  { smap := aset [(draft7_meta_uri, draft7_meta_schema)]
                      (split_uri rid).1 (.obj kvs), vmap := [] }
                  (.obj kvs) true (.obj kvs) rid []
          | some _ => .error .typeError
          | none =>
            compileS f { smap := [(draft7_meta_uri, draft7_meta_schema)], vmap := [] }
              (.obj kvs) true (.obj kvs) "" []) = .ok (E, st') := h2
      cases hid : kvs.lookup "$id" with
      | none => rw [hid] at h2; exact ⟨_, _, h2, rfl⟩
      | some v =>
        rw [hid] at h2
        match v, h2 with
        | .strV rid, h2 =>
          have h2 : (if (split_uri rid).1 = "" then
                compileS f { smap := [(draft7_meta_uri, draft7_meta_schema)], vmap := [] }
                  (.obj kvs) true (.obj kvs) rid []
              else
                match alookup [(draft7_meta_uri, draft7_meta_schema)] (split_uri rid).1 with
                | some existing =>
                  if pyEq existing (.obj kvs) = true then
                    compileS f
                      { smap := aset [(draft7_meta_uri, draft7_meta_schema)]
                          (split_uri rid).1 (.obj kvs), vmap := [] }
                      (.obj kvs) true (.obj kvs) rid []
                  else .error .assertError
                | none =>
                  compileS f
                    { smap := aset [(draft7_meta_uri, draft7_meta_schema)]
                        (split_uri rid).1 (.obj kvs), vmap := [] }
                    (.obj kvs) true (.obj kvs) rid []) = .ok (E, st') := h2
          by_cases habs : (split_uri rid).1 = ""
          · rw [if_pos habs] at h2
            exact ⟨_, _, h2, rfl⟩
          · rw [if_neg habs] at h2
            cases hex : alookup [(draft7_meta_uri, draft7_meta_schema)] (split_uri rid).1 with
            | none => rw [hex] at h2; exact ⟨_, _, h2, rfl⟩
            | some existing =>
              rw [hex] at h2
              have h2 : (if pyEq existing (.obj kvs) = true then
                    compileS f
                      { smap := aset [(draft7_meta_uri, draft7_meta_schema)]
                          (split_uri rid).1 (.obj kvs), vmap := [] }
                      (.obj kvs) true (.obj kvs) rid []
                  else .error .assertError) = .ok (E, st') := h2
              by_cases hpe : pyEq existing (.obj kvs) = true
              · rw [if_pos hpe] at h2
                exact ⟨_, _, h2, rfl⟩
              · rw [if_neg hpe] at h2
                exact Except.noConfusion h2
        | .null, h2 => exact Except.noConfusion h2
        | .boolV b2, h2 => exact Except.noConfusion h2
        | .intV n, h2 => exact Except.noConfusion h2
        | .floatV q, h2 => exact Except.noConfusion h2
        | .arr l, h2 => exact Except.noConfusion h2
        | .obj o, h2 => exact Except.noConfusion h2
    · unfold initStep at h
      rw [if_pos ⟨rfl, fun hmm => hm hmm⟩] at h
      exact Except.noConfusion h


/-- Dissecting a successful `compile({"not": S})`: the result is the
single-keyword conjunction `conj [notKw e]` where `e` compiles `S` (with
the whole `{"not": S}` document as root), and the final state is that
inner compilation's state, starting from the empty validator memo. -/
theorem notTop_extract (f : Nat) (S : JSON) (E : Ev) (st' : CState)
    (h : compileTop f (jobj [("not", S)]) = .ok (E, st')) :
    ∃ g e1 st1,
      compileS g { smap := [(draft7_meta_uri, draft7_meta_schema)], vmap := [] }
        (jobj [("not", S)]) true S "" [] = .ok (e1, st1) ∧
      E = .conj [.notKw e1] ∧ st' = st1 := by
  unfold compileTop compileWith at h
  by_cases hm : metaOK (jobj [("not", S)]) = true
  · have h0 : initStep (compileS f)
        { smap := [(draft7_meta_uri, draft7_meta_schema)], vmap := [] }
        (jobj [("not", S)]) true [] = .ok (E, st') := h
    unfold initStep at h0
    rw [if_neg (fun hand => hand.2 hm)] at h0
    have h0 : compileS f { smap := [(draft7_meta_uri, draft7_meta_schema)], vmap := [] }
        (jobj [("not", S)]) true (jobj [("not", S)]) "" [] = .ok (E, st') := h0
    cases f with
    | zero => exact Except.noConfusion h0
    | succ g =>
      match S, h0 with
      | .boolV c, h0 =>
        have h0 : (match (match (match (match compileS g
              { smap := [(draft7_meta_uri, draft7_meta_schema)], vmap := [] }
              (jobj [("not", JSON.boolV c)]) true (JSON.boolV c) "" [] with
            | .error e => (.error e : CompRes)
            | .ok (e, st1) => .ok (Ev.notKw e, st1)) with
          | .error e => (.error e : CompRes)
          | .ok (inner, st1) => .ok (inner, st1)) with
          | .error e => (.error e : Except CErr (List Ev × CState))
          | .ok (e, st1) => .ok ([e], st1)) with
          | .error e => (.error e : CompRes)
          | .ok (es, st2) => .ok (Ev.conj es, st2)) = .ok (E, st') := h0
        cases hc : compileS g { smap := [(draft7_meta_uri, draft7_meta_schema)], vmap := [] }
            (jobj [("not", JSON.boolV c)]) true (JSON.boolV c) "" [] with
        | error e => rw [hc] at h0; exact Except.noConfusion h0
        | ok p =>
          obtain ⟨e1, st1⟩ := p
          rw [hc] at h0
          have h0 : (Except.ok (Ev.conj [Ev.notKw e1], st1) : CompRes) = .ok (E, st') := h0
          injection h0 with hp
          exact ⟨g, e1, st1, hc, (congrArg Prod.fst hp).symm, (congrArg Prod.snd hp).symm⟩
      | .obj o, h0 =>
        have h0 : (match (match (match (match compileS g
              { smap := [(draft7_meta_uri, draft7_meta_schema)], vmap := [] }
              (jobj [("not", JSON.obj o)]) true (JSON.obj o) "" [] with
            | .error e => (.error e : CompRes)
            | .ok (e, st1) => .ok (Ev.notKw e, st1)) with
          | .error e => (.error e : CompRes)
          | .ok (inner, st1) => .ok (inner, st1)) with
          | .error e => (.error e : Except CErr (List Ev × CState))
          | .ok (e, st1) => .ok ([e], st1)) with
          | .error e => (.error e : CompRes)
          | .ok (es, st2) => .ok (Ev.conj es, st2)) = .ok (E, st') := h0
        cases hc : compileS g { smap := [(draft7_meta_uri, draft7_meta_schema)], vmap := [] }
            (jobj [("not", JSON.obj o)]) true (JSON.obj o) "" [] with
        | error e => rw [hc] at h0; exact Except.noConfusion h0
        | ok p =>
          obtain ⟨e1, st1⟩ := p
          rw [hc] at h0
          have h0 : (Except.ok (Ev.conj [Ev.notKw e1], st1) : CompRes) = .ok (E, st') := h0
          injection h0 with hp
          exact ⟨g, e1, st1, hc, (congrArg Prod.fst hp).symm, (congrArg Prod.snd hp).symm⟩
      | .null, h0 => exact Except.noConfusion h0
      | .intV n, h0 => exact Except.noConfusion h0
      | .floatV q, h0 => exact Except.noConfusion h0
      | .strV s, h0 => exact Except.noConfusion h0
      | .arr l, h0 => exact Except.noConfusion h0
  · have h0 : initStep (compileS f)
        { smap := [(draft7_meta_uri, draft7_meta_schema)], vmap := [] }
        (jobj [("not", S)]) true [] = .ok (E, st') := h
    unfold initStep at h0
    rw [if_pos ⟨rfl, fun hmm => hm hmm⟩] at h0
    exact Except.noConfusion h0

/-- C5 (amended): the negation law holds for `$ref`-free schemas.  For
every schema `S` in which the key `$ref` does not occur at any depth, if
`compile({"not": S})` and `compile(S)` both succeed and evaluating the
compiled `S` on instance `x` terminates with verdict `b`, then evaluating
the compiled `{"not": S}` on `x` yields `!b` (with two extra fuel steps
for the outer conjunction and the `_not` wrapper).  The $ref-free
restriction is necessary: `C5_counterexample` shows the law fails for
`S = {"$ref": "#"}`, whose self-reference resolves to a different root in
the two compilations. -/
theorem C5_amended (f1 f2 ge : Nat) (S x : JSON) (b : Bool)
    (En Es : Ev) (stn sts : CState)
    (hrf : RefFree S = true)
    (h1 : compileTop f1 (jobj [("not", S)]) = .ok (En, stn))
    (h2 : compileTop f2 S = .ok (Es, sts))
    (he : evalEv ge sts.vmap Es x = some b) :
    evalEv (ge + 2) stn.vmap En x = some (!b) := by
  obtain ⟨g, e1, st1, hc, hE, hstn⟩ := notTop_extract f1 S En stn h1
  obtain ⟨stX, uX, hcs, hvmX⟩ := compileTop_extract f2 S Es sts h2
  obtain ⟨hEs, hst1, hsts⟩ := compileS_det g hrf hc hcs
  have hvmn : stn.vmap = [] := by rw [hstn, hst1]
  have hvms : sts.vmap = [] := by rw [hsts, hvmX]
  rw [hvms] at he
  rw [hE, hEs, hvmn]
  have key : evalEv (ge + 2) [] (Ev.conj [Ev.notKw Es]) x
      = (if [(evalEv ge [] Es x).map (fun z => !z)].any Option.isNone then none
         else some ([(evalEv ge [] Es x).map (fun z => !z)].all
           (fun r => r == some true))) := rfl
  rw [he] at key
  cases b with
  | false => exact key
  | true => exact key

/-- C5 (amended) witness: `S = {"type": "integer"}`, `x = 3` — the compiled
`S` accepts, so the compiled `{"not": S}` rejects. -/
theorem C5_amended_witness :
    evalEv (5 + 2)
      ({ smap := [(draft7_meta_uri, draft7_meta_schema)], vmap := [] } : CState).vmap
      (Ev.conj [Ev.notKw (Ev.conj [Ev.typeKw (JSON.strV "integer")])])
      (JSON.intV 3) = some (!true) :=
  C5_amended 9 9 5 (jobj [("type", JSON.strV "integer")]) (JSON.intV 3) true
    (Ev.conj [Ev.notKw (Ev.conj [Ev.typeKw (JSON.strV "integer")])])
    (Ev.conj [Ev.typeKw (JSON.strV "integer")])
    { smap := [(draft7_meta_uri, draft7_meta_schema)], vmap := [] }
    { smap := [(draft7_meta_uri, draft7_meta_schema)], vmap := [] }
    rfl rfl rfl rfl

end Jsx
